import Mathlib

/-!
Verification of the Pythonic Ecosystem Simulator (organisms.py, ecosystem.py).

The Python program is shallowly embedded as follows.

* Python objects (organisms) have reference identity and are mutated in
  place; the lists `self.organisms`, `self.temp_added_organisms` and
  `self.temp_removed_organisms` hold references to the same objects.  We
  model this with an append-only `store : List Organism` acting as the
  heap (the index of an organism in `store` is its identity), while the
  three Python lists become lists of such indices.  Mutating an object in
  place becomes updating the heap at its index.
* The global `random` generator (seeded once with `random.seed(42)`) is
  modelled as an explicit stream of naturals with a position counter,
  threaded through every operation exactly where the Python code draws
  from the generator.  `random.choice(lst)` becomes indexing by
  `draw % lst.length`; `random.random() < p` (p one of 0.10/0.15) becomes
  `draw % 100 < 10` (resp. `15`); `random.randint(0, n-1)` becomes
  `draw % n`; `random.shuffle` becomes the Fisher-Yates loop driven by
  the stream.  The exact distribution is irrelevant to every property
  proved here; what matters is that all randomness flows through this
  single generator.
* `random_empty_cell` is a `while True:` loop with no bound; we embed it
  with explicit fuel and characterise separately for which streams the
  loop terminates.
-/

namespace EcoSim

/-- The closed set of species (`Plant`, `Herbivore`, `Carnivore`);
`isinstance` checks against these leaf classes become equality of tags. -/
inductive Species where
  | plant
  | herbivore
  | carnivore
deriving DecidableEq, Repr

/-- One organism object: fields `x`, `y`, `symbol`, `alive` of `Organism`
plus the `energy` field of `Animal` (plants never read or write it; it is
0 for them) and the species tag replacing the Python class. -/
structure Organism where
  species : Species
  x : Int
  y : Int
  symbol : String
  alive : Bool
  energy : Int
deriving DecidableEq, Repr

/-- Dummy organism returned when a heap index is out of range.  It is dead,
so it is invisible to every query; real code paths never reach it. -/
instance : Inhabited Organism :=
  ⟨{ species := .plant, x := 0, y := 0, symbol := "", alive := false, energy := 0 }⟩

-- Constants from organisms.py, names kept.
def PLANT_SYMBOL : String := "☘"
def PLANT_REPRODUCTION_CHANCE : Nat := 10   -- 0.10, as a percentage
def METABOLIC_ENERGY_COST : Int := 1
def HERBIVORE_SYMBOL : String := "🐇"
def HERBIVORE_INITIAL_ENERGY : Int := 15
def HERBIVORE_EAT_GAIN : Int := 10
def HERBIVORE_REPRODUCTION_ENERGY_THRESHOLD : Int := 20
def HERBIVORE_REPRODUCTION_CHANCE : Nat := 15  -- 0.15
def HERBIVORE_REPRODUCTION_COST : Int := 8
def HERBIVORE_CHILD_ENERGY : Int := 10
def CARNIVORE_SYMBOL : String := "🐅"
def CARNIVORE_INITIAL_ENERGY : Int := 25
def CARNIVORE_EAT_GAIN : Int := 15
def CARNIVORE_REPRODUCTION_ENERGY_THRESHOLD : Int := 40
def CARNIVORE_REPRODUCTION_CHANCE : Nat := 10  -- 0.10
def CARNIVORE_REPRODUCTION_COST : Int := 20
def CARNIVORE_CHILD_ENERGY : Int := 20

/-- `Plant(x, y)` constructor. -/
def Plant.new (x y : Int) : Organism :=
  { species := .plant, x := x, y := y, symbol := PLANT_SYMBOL, alive := true, energy := 0 }

/-- `Herbivore(x, y)` constructor. -/
def Herbivore.new (x y : Int) : Organism :=
  { species := .herbivore, x := x, y := y, symbol := HERBIVORE_SYMBOL, alive := true,
    energy := HERBIVORE_INITIAL_ENERGY }

/-- `Carnivore(x, y)` constructor. -/
def Carnivore.new (x y : Int) : Organism :=
  { species := .carnivore, x := x, y := y, symbol := CARNIVORE_SYMBOL, alive := true,
    energy := CARNIVORE_INITIAL_ENERGY }

/-! ### The heap of organism objects -/

/-- Read the organism object with identity `i` (dummy when out of range). -/
def lookupOrg : List Organism → Nat → Organism
  | [], _ => default
  | o :: _, 0 => o
  | _ :: rest, n + 1 => lookupOrg rest n

/-- Mutate the organism object with identity `i` in place (no-op when out
of range, which real code paths never hit). -/
def setOrg : List Organism → Nat → (Organism → Organism) → List Organism
  | [], _, _ => []
  | o :: rest, 0, f => f o :: rest
  | o :: rest, n + 1, f => o :: setOrg rest n f

@[simp] theorem length_setOrg (s : List Organism) (i : Nat) (f : Organism → Organism) :
    (setOrg s i f).length = s.length := by
  induction s generalizing i with
  | nil => rfl
  | cons o rest ih =>
      cases i with
      | zero => rfl
      | succ n => simp [setOrg, ih]

theorem lookupOrg_setOrg_self (s : List Organism) (i : Nat) (f : Organism → Organism)
    (h : i < s.length) : lookupOrg (setOrg s i f) i = f (lookupOrg s i) := by
  induction s generalizing i with
  | nil => simp at h
  | cons o rest ih =>
      cases i with
      | zero => rfl
      | succ n =>
          simp only [List.length_cons, Nat.succ_lt_succ_iff] at h
          exact ih n h

theorem lookupOrg_setOrg_ne (s : List Organism) (i j : Nat) (f : Organism → Organism)
    (h : j ≠ i) : lookupOrg (setOrg s i f) j = lookupOrg s j := by
  induction s generalizing i j with
  | nil => rfl
  | cons o rest ih =>
      cases i with
      | zero =>
          cases j with
          | zero => exact absurd rfl h
          | succ m => rfl
      | succ n =>
          cases j with
          | zero => rfl
          | succ m => exact ih n m (fun hc => h (by omega))

theorem setOrg_of_ge (s : List Organism) (i : Nat) (f : Organism → Organism)
    (h : s.length ≤ i) : setOrg s i f = s := by
  induction s generalizing i with
  | nil => rfl
  | cons o rest ih =>
      cases i with
      | zero => simp at h
      | succ n =>
          simp only [List.length_cons, Nat.succ_le_succ_iff] at h
          simp [setOrg, ih n h]

theorem lookupOrg_of_ge (s : List Organism) (i : Nat) (h : s.length ≤ i) :
    lookupOrg s i = default := by
  induction s generalizing i with
  | nil => cases i <;> rfl
  | cons o rest ih =>
      cases i with
      | zero => simp at h
      | succ n =>
          simp only [List.length_cons, Nat.succ_le_succ_iff] at h
          exact ih n h

theorem lookupOrg_append_of_lt (s t : List Organism) (i : Nat) (h : i < s.length) :
    lookupOrg (s ++ t) i = lookupOrg s i := by
  induction s generalizing i with
  | nil => simp at h
  | cons o rest ih =>
      cases i with
      | zero => rfl
      | succ n =>
          simp only [List.length_cons, Nat.succ_lt_succ_iff] at h
          exact ih n h

theorem lookupOrg_append_self (s : List Organism) (o : Organism) :
    lookupOrg (s ++ [o]) s.length = o := by
  induction s with
  | nil => rfl
  | cons p rest ih => exact ih

/-- An index whose object is alive is in range (the out-of-range dummy is
dead). -/
theorem lt_length_of_alive {s : List Organism} {i : Nat}
    (h : (lookupOrg s i).alive = true) : i < s.length := by
  by_contra hc
  rw [lookupOrg_of_ge s i (by omega)] at h
  simp [default] at h

/-! ### The random generator -/

/-- The single global `random` generator: an infinite stream of naturals
and a position.  Seeding selects the stream; every draw advances the
position. -/
structure Rng where
  seq : Nat → Nat
  pos : Nat

/-- Draw one value from the generator. -/
def Rng.next (r : Rng) : Nat × Rng :=
  (r.seq r.pos, { r with pos := r.pos + 1 })

/-! ### The ecosystem state -/

/-- `DIRECTIONS` from ecosystem.py: the 8 Moore-neighborhood offsets. -/
def DIRECTIONS : List (Int × Int) :=
  [(-1, 0), (1, 0), (0, -1), (0, 1), (-1, -1), (-1, 1), (1, -1), (1, 1)]

/-- The `Ecosystem` object.  `organisms`, `tempAdded` (Python
`temp_added_organisms`) and `tempRemoved` (`temp_removed_organisms`) hold
identities (indices) into the heap `store`. -/
structure Ecosystem where
  width : Nat
  height : Nat
  store : List Organism
  organisms : List Nat
  tempAdded : List Nat
  tempRemoved : List Nat
  total_ticks : Nat
deriving DecidableEq, Repr

/-- Dereference an identity in an ecosystem's heap. -/
def Ecosystem.lookup (e : Ecosystem) (i : Nat) : Organism :=
  lookupOrg e.store i

/-- The list `self.organisms + self.temp_added_organisms` over which the
spatial queries iterate. -/
def Ecosystem.pool (e : Ecosystem) : List Nat :=
  e.organisms ++ e.tempAdded

/-- `get_organism_at`: all alive organisms (committed + pending-born) at
`(x, y)`. -/
def Ecosystem.get_organism_at (e : Ecosystem) (x y : Int) : List Nat :=
  e.pool.filter fun i =>
    (e.lookup i).x == x && (e.lookup i).y == y && (e.lookup i).alive

/-- `get_adjacent_cells`: the in-bounds Moore-neighborhood cells of
`(x, y)`. -/
def Ecosystem.get_adjacent_cells (e : Ecosystem) (x y : Int) : List (Int × Int) :=
  (DIRECTIONS.map fun d => (x + d.1, y + d.2)).filter fun c =>
    0 ≤ c.1 && c.1 < (e.width : Int) && 0 ≤ c.2 && c.2 < (e.height : Int)

/-- `get_adjacent_empty_cells`: adjacent cells with no (alive) occupant. -/
def Ecosystem.get_adjacent_empty_cells (e : Ecosystem) (x y : Int) : List (Int × Int) :=
  (e.get_adjacent_cells x y).filter fun c => (e.get_organism_at c.1 c.2).isEmpty

/-- `get_adjacent_organisms`: for each adjacent cell, every alive organism
of the target species there (outer loop over cells, inner over the pool,
as in the source). -/
def Ecosystem.get_adjacent_organisms (e : Ecosystem) (x y : Int) (t : Species) : List Nat :=
  (e.get_adjacent_cells x y).flatMap fun c =>
    e.pool.filter fun i =>
      (e.lookup i).x == c.1 && (e.lookup i).y == c.2 &&
        decide ((e.lookup i).species = t) && (e.lookup i).alive

/-- `add_organism`: append a freshly constructed object to the heap and
its identity to the pending-birth queue. -/
def Ecosystem.add_organism (e : Ecosystem) (o : Organism) : Ecosystem :=
  { e with store := e.store ++ [o], tempAdded := e.tempAdded ++ [e.store.length] }

/-- `remove_organism`: set `alive = False` and enqueue for purge. -/
def Ecosystem.remove_organism (e : Ecosystem) (i : Nat) : Ecosystem :=
  { e with store := setOrg e.store i (fun o => { o with alive := false }),
           tempRemoved := e.tempRemoved ++ [i] }

/-- `move_organism`: mutate the position in place; no occupancy check. -/
def Ecosystem.move_organism (e : Ecosystem) (i : Nat) (newX newY : Int) : Ecosystem :=
  { e with store := setOrg e.store i (fun o => { o with x := newX, y := newY }) }

/-- In-place update of an animal's `energy` field (`self.energy -= ...`,
`self.energy += ...`). -/
def Ecosystem.modifyEnergy (e : Ecosystem) (i : Nat) (f : Int → Int) : Ecosystem :=
  { e with store := setOrg e.store i (fun o => { o with energy := f o.energy }) }

/-! ### Organism behavior (organisms.py) -/

/-- `random.choice(lst)`: draw once and pick an element (callers guard
non-emptiness, so the default is never produced). -/
def choice {α : Type} (l : List α) (d : α) (r : Rng) : α × Rng :=
  let (k, r') := r.next
  (l.getD (k % l.length) d, r')

/-- The prey-selection prefix of `Animal.eat`: gather adjacent alive prey
and, when some exist, choose one at random. -/
def Animal.eat_choice (e : Ecosystem) (i : Nat) (preyClass : Species) (r : Rng) :
    Option Nat × Rng :=
  let prey_list := e.get_adjacent_organisms (e.lookup i).x (e.lookup i).y preyClass
  match prey_list with
  | [] => (none, r)
  | _ :: _ =>
      let (p, r') := choice prey_list 0 r
      (some p, r')

/-- `Animal.eat`: if a prey was chosen, relocate onto the prey's cell,
mark the prey dead, gain energy (in source order); report success. -/
def Animal.eat (e : Ecosystem) (i : Nat) (preyClass : Species) (eat_gain : Int) (r : Rng) :
    Ecosystem × Rng × Bool :=
  match Animal.eat_choice e i preyClass r with
  | (some p, r') =>
      let prey := e.lookup p
      let e1 := e.move_organism i prey.x prey.y
      let e2 := e1.remove_organism p
      let e3 := e2.modifyEnergy i (· + eat_gain)
      (e3, r', true)
  | (none, r') => (e, r', false)

/-- `Animal.reproduce`: threshold check, then probability roll (the roll
draws only when the threshold check passed, as with Python's
short-circuit `and`), then an empty adjacent cell; on success enqueue one
child with the fixed child energy and deduct the cost. -/
def Animal.reproduce (e : Ecosystem) (i : Nat) (reproduction_energy_threshold : Int)
    (reproduction_chance : Nat) (reproduction_cost : Int)
    (child_class : Int → Int → Organism) (child_energy : Int) (r : Rng) :
    Ecosystem × Rng × Bool :=
  if reproduction_energy_threshold ≤ (e.lookup i).energy then
    let (k, r1) := r.next
    if k % 100 < reproduction_chance then
      let empty_cells := e.get_adjacent_empty_cells (e.lookup i).x (e.lookup i).y
      match empty_cells with
      | [] => (e, r1, false)
      | _ :: _ =>
          let (c, r2) := choice empty_cells (0, 0) r1
          let new_child := { child_class c.1 c.2 with energy := child_energy }
          let e1 := e.add_organism new_child
          let e2 := e1.modifyEnergy i (· - reproduction_cost)
          (e2, r2, true)
    else (e, r1, false)
  else (e, r, false)

/-- The cell-selection prefix of `Animal.move`: the random adjacent empty
cell, when one exists. -/
def Animal.move_choice (e : Ecosystem) (i : Nat) (r : Rng) : Option (Int × Int) × Rng :=
  let empty_cells := e.get_adjacent_empty_cells (e.lookup i).x (e.lookup i).y
  match empty_cells with
  | [] => (none, r)
  | _ :: _ =>
      let (c, r') := choice empty_cells (0, 0) r
      (some c, r')

/-- `Animal.move`: relocate to a random adjacent empty cell, if any. -/
def Animal.move (e : Ecosystem) (i : Nat) (r : Rng) : Ecosystem × Rng :=
  match Animal.move_choice e i r with
  | (some c, r') => (e.move_organism i c.1 c.2, r')
  | (none, r') => (e, r')

/-- `Animal.survive`: enqueue self for death when `energy <= 0`. -/
def Animal.survive (e : Ecosystem) (i : Nat) : Ecosystem × Bool :=
  if (e.lookup i).energy ≤ 0 then ((e.remove_organism i), false) else (e, true)

/-- `Animal.update` (the base-class part): the unconditional metabolic
cost. -/
def Animal.updateBase (e : Ecosystem) (i : Nat) : Ecosystem :=
  e.modifyEnergy i (· - METABOLIC_ENERGY_COST)

/-- `Plant.update`: with probability 0.10, enqueue a new plant on a
random adjacent empty cell (the roll always draws). -/
def Plant.update (e : Ecosystem) (i : Nat) (r : Rng) : Ecosystem × Rng :=
  let (k, r1) := r.next
  if k % 100 < PLANT_REPRODUCTION_CHANCE then
    let empty_cells := e.get_adjacent_empty_cells (e.lookup i).x (e.lookup i).y
    match empty_cells with
    | [] => (e, r1)
    | _ :: _ =>
        let (c, r2) := choice empty_cells (0, 0) r1
        (e.add_organism (Plant.new c.1 c.2), r2)
  else (e, r1)

/-- `Herbivore.update`: metabolize, then eat / reproduce / move with the
first success ending the action phase, then the survive check. -/
def Herbivore.update (e : Ecosystem) (i : Nat) (r : Rng) : Ecosystem × Rng :=
  let e0 := Animal.updateBase e i
  let er1 := Animal.eat e0 i Species.plant HERBIVORE_EAT_GAIN r
  let er2 :=
    if er1.2.2 then er1
    else Animal.reproduce er1.1 i HERBIVORE_REPRODUCTION_ENERGY_THRESHOLD
      HERBIVORE_REPRODUCTION_CHANCE HERBIVORE_REPRODUCTION_COST Herbivore.new
      HERBIVORE_CHILD_ENERGY er1.2.1
  let er3 := if er2.2.2 then (er2.1, er2.2.1) else Animal.move er2.1 i er2.2.1
  ((Animal.survive er3.1 i).1, er3.2)

/-- `Carnivore.update`: same skeleton with the carnivore constants. -/
def Carnivore.update (e : Ecosystem) (i : Nat) (r : Rng) : Ecosystem × Rng :=
  let e0 := Animal.updateBase e i
  let er1 := Animal.eat e0 i Species.herbivore CARNIVORE_EAT_GAIN r
  let er2 :=
    if er1.2.2 then er1
    else Animal.reproduce er1.1 i CARNIVORE_REPRODUCTION_ENERGY_THRESHOLD
      CARNIVORE_REPRODUCTION_CHANCE CARNIVORE_REPRODUCTION_COST Carnivore.new
      CARNIVORE_CHILD_ENERGY er1.2.1
  let er3 := if er2.2.2 then (er2.1, er2.2.1) else Animal.move er2.1 i er2.2.1
  ((Animal.survive er3.1 i).1, er3.2)

/-- Dynamic dispatch of `org.update(self)` on the organism's class. -/
def Organism.update (e : Ecosystem) (i : Nat) (r : Rng) : Ecosystem × Rng :=
  match (e.lookup i).species with
  | .plant => Plant.update e i r
  | .herbivore => Herbivore.update e i r
  | .carnivore => Carnivore.update e i r

/-! ### The tick scheduler (Ecosystem.run) -/

/-- One swap of `random.shuffle`'s Fisher-Yates loop. -/
def swapIdx (l : List Nat) (i j : Nat) : List Nat :=
  (l.set i (l.getD j 0)).set j (l.getD i 0)

/-- The Fisher-Yates loop of `random.shuffle`, from index `i` down to 1. -/
def shuffleGo (l : List Nat) (i : Nat) (r : Rng) : List Nat × Rng :=
  match i with
  | 0 => (l, r)
  | n + 1 =>
      let (k, r') := r.next
      shuffleGo (swapIdx l (n + 1) (k % (n + 2))) n r'

/-- `random.shuffle` on a copy of the organism list. -/
def shuffle (l : List Nat) (r : Rng) : List Nat × Rng :=
  shuffleGo l (l.length - 1) r

/-- The per-tick update loop: each organism of the shuffled copy acts,
but only if it is still alive when its turn arrives. -/
def updateLoop (e : Ecosystem) (ids : List Nat) (r : Rng) : Ecosystem × Rng :=
  match ids with
  | [] => (e, r)
  | i :: rest =>
      if (e.lookup i).alive then
        let (e', r') := Organism.update e i r
        updateLoop e' rest r'
      else updateLoop e rest r

/-- The commit phase at the end of a tick: append pending births that are
still alive, purge pending deaths (`list.remove`: first occurrence, when
present), clear both queues. -/
def Ecosystem.commit (e : Ecosystem) : Ecosystem :=
  let orgs1 := e.organisms ++ e.tempAdded.filter fun i => (e.lookup i).alive
  let orgs2 := e.tempRemoved.foldl (fun l i => l.erase i) orgs1
  { e with organisms := orgs2, tempAdded := [], tempRemoved := [] }

/-- One iteration of the loop in `Ecosystem.run`: shuffle a copy, update
every organism, commit births and deaths.  (The display and the delay do
not touch the state.) -/
def Ecosystem.runTick (e : Ecosystem) (r : Rng) : Ecosystem × Rng :=
  let (ids, r1) := shuffle e.organisms r
  let (e1, r2) := updateLoop e ids r1
  (e1.commit, r2)

/-- The state after `n` ticks. -/
def runState (e : Ecosystem) (r : Rng) : Nat → Ecosystem × Rng
  | 0 => (e, r)
  | n + 1 =>
      let (e', r') := e.runTick r
      runState e' r' n

/-! ### Snapshots (Ecosystem.display, state-reading part) -/

/-- The read-only per-tick view handed to the renderer: the alive
organisms of main storage with positions and symbols, and the per-species
alive counts, tagged with the tick number. -/
structure Snapshot where
  tick : Nat
  cells : List (Int × Int × String)
  plants : Nat
  herbivores : Nat
  carnivores : Nat
deriving DecidableEq, Repr

/-- `sum(isinstance(o, cls) and o.alive for o in self.organisms)`. -/
def Ecosystem.countSpecies (e : Ecosystem) (t : Species) : Nat :=
  e.organisms.countP fun i => decide ((e.lookup i).species = t) && (e.lookup i).alive

/-- The snapshot `display(tick)` reads from the state. -/
def Ecosystem.snapshot (e : Ecosystem) (tick : Nat) : Snapshot :=
  { tick := tick
    cells := (e.organisms.filter fun i => (e.lookup i).alive).map fun i =>
      ((e.lookup i).x, (e.lookup i).y, (e.lookup i).symbol)
    plants := e.countSpecies .plant
    herbivores := e.countSpecies .herbivore
    carnivores := e.countSpecies .carnivore }

/-- The snapshots emitted by the loop of `Ecosystem.run`, from tick
number `tick`, for `n` more ticks. -/
def runGo (e : Ecosystem) (r : Rng) (n tick : Nat) : List Snapshot :=
  match n with
  | 0 => []
  | m + 1 =>
      let (e', r') := e.runTick r
      e'.snapshot tick :: runGo e' r' m (tick + 1)

/-- `Ecosystem.run`: exactly `total_ticks` ticks, one snapshot each. -/
def Ecosystem.run (e : Ecosystem) (r : Rng) : List Snapshot :=
  runGo e r e.total_ticks 1

/-! ### Construction (Ecosystem.__init__, populate, random_empty_cell) -/

/-- One iteration body of `random_empty_cell`: `random.randint(0, w-1)`
and `random.randint(0, h-1)`. -/
def sampleCell (w h : Nat) (r : Rng) : (Int × Int) × Rng :=
  let (kx, r1) := r.next
  let (ky, r2) := r1.next
  ((((kx % w : Nat) : Int), ((ky % h : Nat) : Int)), r2)

/-- `random_empty_cell`: the `while True:` retry loop, embedded with
explicit fuel (the source has no bound; termination is characterised
separately).  On success the cell is added to `initial_helper_set`
(modelled as a list) and returned. -/
def random_empty_cell (w h : Nat) (taken : List (Int × Int)) (fuel : Nat) (r : Rng) :
    Option ((Int × Int) × List (Int × Int) × Rng) :=
  match fuel with
  | 0 => none
  | f + 1 =>
      let (c, r') := sampleCell w h r
      if c ∈ taken then random_empty_cell w h taken f r'
      else some (c, c :: taken, r')

/-- `populate`: `count` placement searches, each appending one organism.
(The source's `if (x, y):` guard is always true — a non-empty tuple is
truthy — so every successful search appends.) -/
def populate (w h : Nat) (organism_class : Int → Int → Organism) (count : Nat)
    (store : List Organism) (orgIds : List Nat) (taken : List (Int × Int))
    (fuel : Nat) (r : Rng) :
    Option (List Organism × List Nat × List (Int × Int) × Rng) :=
  match count with
  | 0 => some (store, orgIds, taken, r)
  | c + 1 =>
      match random_empty_cell w h taken fuel r with
      | none => none
      | some (cell, taken', r') =>
          populate w h organism_class c (store ++ [organism_class cell.1 cell.2])
            (orgIds ++ [store.length]) taken' fuel r'

/-- `Ecosystem.__init__`: populate plants, then herbivores, then
carnivores, clear the helper set, initialize the queues. -/
def Ecosystem.create (width height initial_plants initial_herbivores initial_carnivores
    total_ticks : Nat) (fuel : Nat) (r : Rng) : Option (Ecosystem × Rng) :=
  match populate width height Plant.new initial_plants [] [] [] fuel r with
  | none => none
  | some (s1, ids1, t1, r1) =>
      match populate width height Herbivore.new initial_herbivores s1 ids1 t1 fuel r1 with
      | none => none
      | some (s2, ids2, t2, r2) =>
          match populate width height Carnivore.new initial_carnivores s2 ids2 t2 fuel r2 with
          | none => none
          | some (s3, ids3, _, r3) =>
              some ({ width := width, height := height, store := s3, organisms := ids3,
                      tempAdded := [], tempRemoved := [], total_ticks := total_ticks }, r3)

/-- A whole run as a function of the parameters and the seed: construct
(which already emits the tick-0 snapshot) and run. -/
def simulate (width height initial_plants initial_herbivores initial_carnivores
    total_ticks fuel : Nat) (seed : Rng) : Option (List Snapshot) :=
  match Ecosystem.create width height initial_plants initial_herbivores initial_carnivores
      total_ticks fuel seed with
  | none => none
  | some (e, r) => some (e.snapshot 0 :: e.run r)

/-! ### Characterisation of the spatial queries -/

theorem mem_get_organism_at {e : Ecosystem} {x y : Int} {i : Nat} :
    i ∈ e.get_organism_at x y ↔
      i ∈ e.pool ∧ (e.lookup i).x = x ∧ (e.lookup i).y = y ∧ (e.lookup i).alive = true := by
  simp [Ecosystem.get_organism_at, List.mem_filter, and_assoc]

theorem get_organism_at_eq_nil_iff {e : Ecosystem} {x y : Int} :
    e.get_organism_at x y = [] ↔
      ∀ i ∈ e.pool, (e.lookup i).alive = true →
        ¬((e.lookup i).x = x ∧ (e.lookup i).y = y) := by
  constructor
  · intro hnil i hi halive hpos
    have : i ∈ e.get_organism_at x y :=
      mem_get_organism_at.mpr ⟨hi, hpos.1, hpos.2, halive⟩
    rw [hnil] at this
    exact absurd this (List.not_mem_nil i)
  · intro h
    apply List.eq_nil_iff_forall_not_mem.mpr
    intro i hi
    obtain ⟨hpool, hx, hy, halive⟩ := mem_get_organism_at.mp hi
    exact h i hpool halive ⟨hx, hy⟩

theorem mem_get_adjacent_cells {e : Ecosystem} {x y : Int} {c : Int × Int} :
    c ∈ e.get_adjacent_cells x y ↔
      (∃ d ∈ DIRECTIONS, c = (x + d.1, y + d.2)) ∧
        0 ≤ c.1 ∧ c.1 < (e.width : Int) ∧ 0 ≤ c.2 ∧ c.2 < (e.height : Int) := by
  simp only [Ecosystem.get_adjacent_cells, List.mem_filter, List.mem_map]
  constructor
  · rintro ⟨⟨d, hd, rfl⟩, hbound⟩
    simp only [Bool.and_eq_true, decide_eq_true_eq] at hbound
    exact ⟨⟨d, hd, rfl⟩, hbound.1.1.1, hbound.1.1.2, hbound.1.2, hbound.2⟩
  · rintro ⟨⟨d, hd, rfl⟩, h1, h2, h3, h4⟩
    refine ⟨⟨d, hd, rfl⟩, ?_⟩
    simp only [Bool.and_eq_true, decide_eq_true_eq]
    exact ⟨⟨⟨h1, h2⟩, h3⟩, h4⟩

/-- No cell is adjacent to itself: all direction offsets are nonzero. -/
theorem mem_get_adjacent_cells_ne {e : Ecosystem} {x y : Int} {c : Int × Int}
    (h : c ∈ e.get_adjacent_cells x y) : c ≠ (x, y) := by
  obtain ⟨⟨d, hd, rfl⟩, -⟩ := mem_get_adjacent_cells.mp h
  have hnz : ¬(d.1 = 0 ∧ d.2 = 0) := by
    fin_cases hd <;> simp
  intro hc
  rw [Prod.mk.injEq] at hc
  exact hnz ⟨by omega, by omega⟩

theorem mem_get_adjacent_empty_cells {e : Ecosystem} {x y : Int} {c : Int × Int} :
    c ∈ e.get_adjacent_empty_cells x y ↔
      c ∈ e.get_adjacent_cells x y ∧ e.get_organism_at c.1 c.2 = [] := by
  simp [Ecosystem.get_adjacent_empty_cells, List.mem_filter, List.isEmpty_iff]

theorem mem_get_adjacent_organisms {e : Ecosystem} {x y : Int} {t : Species} {p : Nat}
    (h : p ∈ e.get_adjacent_organisms x y t) :
    p ∈ e.pool ∧ (e.lookup p).alive = true ∧ (e.lookup p).species = t ∧
      ((e.lookup p).x, (e.lookup p).y) ∈ e.get_adjacent_cells x y := by
  simp only [Ecosystem.get_adjacent_organisms, List.mem_flatMap, List.mem_filter] at h
  obtain ⟨c, hc, hp, hpred⟩ := h
  simp only [Bool.and_eq_true, beq_iff_eq, decide_eq_true_eq] at hpred
  obtain ⟨⟨⟨hx, hy⟩, hsp⟩, halive⟩ := hpred
  refine ⟨hp, halive, hsp, ?_⟩
  rw [hx, hy]
  exact hc

/-- A chosen prey is never the eater itself: the prey sits on a cell
adjacent to the eater's own cell, and no cell is adjacent to itself. -/
theorem prey_ne_self {e : Ecosystem} {i p : Nat} {t : Species}
    (h : p ∈ e.get_adjacent_organisms (e.lookup i).x (e.lookup i).y t) : p ≠ i := by
  obtain ⟨-, -, -, hadj⟩ := mem_get_adjacent_organisms h
  intro hpi
  subst hpi
  exact mem_get_adjacent_cells_ne hadj rfl

theorem choice_mem {α : Type} (l : List α) (d : α) (r : Rng) (h : l ≠ []) :
    (choice l d r).1 ∈ l := by
  have hlen : 0 < l.length := List.length_pos.mpr h
  have hlt : (r.seq r.pos % l.length) < l.length := Nat.mod_lt _ hlen
  simp only [choice, Rng.next]
  rw [List.getD_eq_getElem?_getD, List.getElem?_eq_getElem hlt]
  exact List.getElem_mem hlt

/-! ### Frame lemmas for the mutating operations -/

section Frames
variable (e : Ecosystem) (i j : Nat)

@[simp] theorem move_organism_organisms (nx ny : Int) :
    (e.move_organism i nx ny).organisms = e.organisms := rfl

@[simp] theorem move_organism_tempAdded (nx ny : Int) :
    (e.move_organism i nx ny).tempAdded = e.tempAdded := rfl

@[simp] theorem move_organism_tempRemoved (nx ny : Int) :
    (e.move_organism i nx ny).tempRemoved = e.tempRemoved := rfl

@[simp] theorem move_organism_pool (nx ny : Int) :
    (e.move_organism i nx ny).pool = e.pool := rfl

@[simp] theorem move_organism_store_length (nx ny : Int) :
    (e.move_organism i nx ny).store.length = e.store.length := by
  simp [Ecosystem.move_organism]

theorem lookup_move_organism_self (nx ny : Int) (h : i < e.store.length) :
    (e.move_organism i nx ny).lookup i = { e.lookup i with x := nx, y := ny } := by
  simp [Ecosystem.move_organism, Ecosystem.lookup, lookupOrg_setOrg_self _ _ _ h]

theorem lookup_move_organism_ne (nx ny : Int) (h : j ≠ i) :
    (e.move_organism i nx ny).lookup j = e.lookup j := by
  simp [Ecosystem.move_organism, Ecosystem.lookup, lookupOrg_setOrg_ne _ _ _ _ h]

@[simp] theorem remove_organism_organisms : (e.remove_organism i).organisms = e.organisms := rfl

@[simp] theorem remove_organism_tempAdded : (e.remove_organism i).tempAdded = e.tempAdded := rfl

@[simp] theorem remove_organism_tempRemoved :
    (e.remove_organism i).tempRemoved = e.tempRemoved ++ [i] := rfl

@[simp] theorem remove_organism_pool : (e.remove_organism i).pool = e.pool := rfl

@[simp] theorem remove_organism_store_length :
    (e.remove_organism i).store.length = e.store.length := by
  simp [Ecosystem.remove_organism]

theorem lookup_remove_organism_self (h : i < e.store.length) :
    (e.remove_organism i).lookup i = { e.lookup i with alive := false } := by
  simp [Ecosystem.remove_organism, Ecosystem.lookup, lookupOrg_setOrg_self _ _ _ h]

theorem lookup_remove_organism_ne (h : j ≠ i) :
    (e.remove_organism i).lookup j = e.lookup j := by
  simp [Ecosystem.remove_organism, Ecosystem.lookup, lookupOrg_setOrg_ne _ _ _ _ h]

@[simp] theorem modifyEnergy_organisms (f : Int → Int) :
    (e.modifyEnergy i f).organisms = e.organisms := rfl

@[simp] theorem modifyEnergy_tempAdded (f : Int → Int) :
    (e.modifyEnergy i f).tempAdded = e.tempAdded := rfl

@[simp] theorem modifyEnergy_tempRemoved (f : Int → Int) :
    (e.modifyEnergy i f).tempRemoved = e.tempRemoved := rfl

@[simp] theorem modifyEnergy_pool (f : Int → Int) : (e.modifyEnergy i f).pool = e.pool := rfl

@[simp] theorem modifyEnergy_store_length (f : Int → Int) :
    (e.modifyEnergy i f).store.length = e.store.length := by
  simp [Ecosystem.modifyEnergy]

theorem lookup_modifyEnergy_self (f : Int → Int) (h : i < e.store.length) :
    (e.modifyEnergy i f).lookup i = { e.lookup i with energy := f (e.lookup i).energy } := by
  simp [Ecosystem.modifyEnergy, Ecosystem.lookup, lookupOrg_setOrg_self _ _ _ h]

theorem lookup_modifyEnergy_ne (f : Int → Int) (h : j ≠ i) :
    (e.modifyEnergy i f).lookup j = e.lookup j := by
  simp [Ecosystem.modifyEnergy, Ecosystem.lookup, lookupOrg_setOrg_ne _ _ _ _ h]

@[simp] theorem add_organism_organisms (o : Organism) :
    (e.add_organism o).organisms = e.organisms := rfl

@[simp] theorem add_organism_tempAdded (o : Organism) :
    (e.add_organism o).tempAdded = e.tempAdded ++ [e.store.length] := rfl

@[simp] theorem add_organism_tempRemoved (o : Organism) :
    (e.add_organism o).tempRemoved = e.tempRemoved := rfl

theorem add_organism_pool (o : Organism) :
    (e.add_organism o).pool = e.pool ++ [e.store.length] := by
  simp [Ecosystem.pool, Ecosystem.add_organism]

@[simp] theorem add_organism_store_length (o : Organism) :
    (e.add_organism o).store.length = e.store.length + 1 := by
  simp [Ecosystem.add_organism]

theorem lookup_add_organism_of_lt (o : Organism) (h : j < e.store.length) :
    (e.add_organism o).lookup j = e.lookup j := by
  simp [Ecosystem.add_organism, Ecosystem.lookup, lookupOrg_append_of_lt _ _ _ h]

theorem lookup_add_organism_new (o : Organism) :
    (e.add_organism o).lookup e.store.length = o := by
  simp [Ecosystem.add_organism, Ecosystem.lookup, lookupOrg_append_self]

end Frames

/-! ### The occupancy invariant -/

/-- The occupancy invariant maintained by the simulation: every tracked
identity points into the heap, no identity is tracked twice, and no two
alive tracked organisms share a cell. -/
def Inv (e : Ecosystem) : Prop :=
  (∀ i ∈ e.pool, i < e.store.length) ∧ e.pool.Nodup ∧
    ∀ i ∈ e.pool, ∀ j ∈ e.pool, i ≠ j →
      (e.lookup i).alive = true → (e.lookup j).alive = true →
      ¬((e.lookup i).x = (e.lookup j).x ∧ (e.lookup i).y = (e.lookup j).y)

instance (e : Ecosystem) : Decidable (Inv e) := by
  unfold Inv
  infer_instance

/-- The occupancy bound: under the invariant, any cell's occupant list
has at most one element. -/
theorem Inv.occupancy {e : Ecosystem} (h : Inv e) (x y : Int) :
    (e.get_organism_at x y).length ≤ 1 := by
  obtain ⟨hlen, hnd, hdis⟩ := h
  match hfe : e.get_organism_at x y with
  | [] => simp
  | [a] => simp
  | a :: b :: t =>
      exfalso
      have ha : a ∈ e.get_organism_at x y := by rw [hfe]; exact List.mem_cons_self a _
      have hb : b ∈ e.get_organism_at x y := by
        rw [hfe]; exact List.mem_cons_of_mem a (List.mem_cons_self b t)
      have hndf : (e.get_organism_at x y).Nodup := hnd.filter _
      have hab : a ≠ b := by
        rw [hfe] at hndf
        rcases List.nodup_cons.mp hndf with ⟨hna, -⟩
        intro hc
        exact hna (hc ▸ List.mem_cons_self b t)
      obtain ⟨hap, hax, hay, haa⟩ := mem_get_organism_at.mp ha
      obtain ⟨hbp, hbx, hby, hba⟩ := mem_get_organism_at.mp hb
      exact hdis a hap b hbp hab haa hba ⟨by rw [hax, hbx], by rw [hay, hby]⟩

/-! ### Preservation of the invariant by each operation -/

theorem move_organism_of_ge {e : Ecosystem} {i : Nat} (nx ny : Int)
    (h : e.store.length ≤ i) : e.move_organism i nx ny = e := by
  show { e with store := setOrg e.store i _ } = e
  rw [setOrg_of_ge _ _ _ h]

theorem modifyEnergy_of_ge {e : Ecosystem} {i : Nat} (f : Int → Int)
    (h : e.store.length ≤ i) : e.modifyEnergy i f = e := by
  show { e with store := setOrg e.store i _ } = e
  rw [setOrg_of_ge _ _ _ h]

theorem lookup_remove_organism_of_ge {e : Ecosystem} {i : Nat} (j : Nat)
    (h : e.store.length ≤ i) : (e.remove_organism i).lookup j = e.lookup j := by
  show lookupOrg (setOrg e.store i _) j = _
  rw [setOrg_of_ge _ _ _ h]
  rfl

/-- Congruence: the invariant transfers to a state with the same pool and
heap size whose organisms have the same positions and no more life. -/
theorem Inv_of_like (e e' : Ecosystem)
    (hpool : e'.pool = e.pool) (hlen : e'.store.length = e.store.length)
    (halive : ∀ j, (e'.lookup j).alive = true → (e.lookup j).alive = true)
    (hx : ∀ j, (e'.lookup j).x = (e.lookup j).x)
    (hy : ∀ j, (e'.lookup j).y = (e.lookup j).y)
    (h : Inv e) : Inv e' := by
  obtain ⟨h1, h2, h3⟩ := h
  refine ⟨?_, ?_, ?_⟩
  · intro i hi
    rw [hpool] at hi
    rw [hlen]
    exact h1 i hi
  · rw [hpool]
    exact h2
  · intro i hi j hj hij hai haj
    rw [hpool] at hi hj
    rw [hx i, hy i, hx j, hy j]
    exact h3 i hi j hj hij (halive i hai) (halive j haj)

theorem Inv_modifyEnergy {e : Ecosystem} (i : Nat) (f : Int → Int) (h : Inv e) :
    Inv (e.modifyEnergy i f) := by
  by_cases hlt : i < e.store.length
  · refine Inv_of_like e (e.modifyEnergy i f) rfl (by simp) ?_ ?_ ?_ h <;>
      intro j <;> by_cases hj : j = i
    · subst hj
      rw [lookup_modifyEnergy_self e j f hlt]
      exact fun ha => ha
    · rw [lookup_modifyEnergy_ne e i j f hj]
      exact fun ha => ha
    · subst hj
      rw [lookup_modifyEnergy_self e j f hlt]
    · rw [lookup_modifyEnergy_ne e i j f hj]
    · subst hj
      rw [lookup_modifyEnergy_self e j f hlt]
    · rw [lookup_modifyEnergy_ne e i j f hj]
  · rw [modifyEnergy_of_ge f (Nat.le_of_not_lt hlt)]
    exact h

theorem Inv_remove_organism {e : Ecosystem} (i : Nat) (h : Inv e) :
    Inv (e.remove_organism i) := by
  by_cases hlt : i < e.store.length
  · refine Inv_of_like e (e.remove_organism i) rfl (by simp) ?_ ?_ ?_ h <;>
      intro j <;> by_cases hj : j = i
    · subst hj
      rw [lookup_remove_organism_self e j hlt]
      intro ha
      exact absurd ha (by simp)
    · rw [lookup_remove_organism_ne e i j hj]
      exact fun ha => ha
    · subst hj
      rw [lookup_remove_organism_self e j hlt]
    · rw [lookup_remove_organism_ne e i j hj]
    · subst hj
      rw [lookup_remove_organism_self e j hlt]
    · rw [lookup_remove_organism_ne e i j hj]
  · refine Inv_of_like e (e.remove_organism i) rfl (by simp) ?_ ?_ ?_ h <;> intro j <;>
      rw [lookup_remove_organism_of_ge j (Nat.le_of_not_lt hlt)]
    exact fun ha => ha

theorem Inv_move_organism {e : Ecosystem} {i : Nat} {nx ny : Int}
    (hempty : e.get_organism_at nx ny = []) (h : Inv e) :
    Inv (e.move_organism i nx ny) := by
  by_cases hlt : i < e.store.length
  case neg =>
    rw [move_organism_of_ge nx ny (Nat.le_of_not_lt hlt)]
    exact h
  obtain ⟨h1, h2, h3⟩ := h
  have hobs : ∀ c ∈ e.pool, (e.lookup c).alive = true →
      ¬((e.lookup c).x = nx ∧ (e.lookup c).y = ny) := by
    intro c hc hca hcp
    have hmem : c ∈ e.get_organism_at nx ny := mem_get_organism_at.mpr ⟨hc, hcp.1, hcp.2, hca⟩
    rw [hempty] at hmem
    exact absurd hmem (List.not_mem_nil c)
  refine ⟨?_, ?_, ?_⟩
  · intro k hk
    rw [move_organism_pool] at hk
    rw [move_organism_store_length]
    exact h1 k hk
  · rw [move_organism_pool]
    exact h2
  · intro a ha b hb hab haa hba
    rw [move_organism_pool] at ha hb
    by_cases hai : a = i
    · subst hai
      have hbi : b ≠ a := fun hc => hab hc.symm
      rw [lookup_move_organism_ne e a b nx ny hbi] at hba ⊢
      rw [lookup_move_organism_self e a nx ny hlt] at haa ⊢
      simp only at haa ⊢
      intro hpos
      exact hobs b hb hba ⟨hpos.1.symm, hpos.2.symm⟩
    · by_cases hbi : b = i
      · subst hbi
        rw [lookup_move_organism_ne e b a nx ny hai] at haa ⊢
        rw [lookup_move_organism_self e b nx ny hlt] at hba ⊢
        simp only at hba ⊢
        intro hpos
        exact hobs a ha haa ⟨hpos.1, hpos.2⟩
      · rw [lookup_move_organism_ne e i a nx ny hai] at haa ⊢
        rw [lookup_move_organism_ne e i b nx ny hbi] at hba ⊢
        exact h3 a ha b hb hab haa hba

theorem Inv_add_organism {e : Ecosystem} {o : Organism}
    (hempty : e.get_organism_at o.x o.y = []) (h : Inv e) :
    Inv (e.add_organism o) := by
  obtain ⟨h1, h2, h3⟩ := h
  have hfresh : e.store.length ∉ e.pool := fun hc => absurd (h1 _ hc) (by omega)
  have hobs : ∀ c ∈ e.pool, (e.lookup c).alive = true →
      ¬((e.lookup c).x = o.x ∧ (e.lookup c).y = o.y) := by
    intro c hc hca hcp
    have hmem : c ∈ e.get_organism_at o.x o.y := mem_get_organism_at.mpr ⟨hc, hcp.1, hcp.2, hca⟩
    rw [hempty] at hmem
    exact absurd hmem (List.not_mem_nil c)
  refine ⟨?_, ?_, ?_⟩
  · intro k hk
    rw [add_organism_pool] at hk
    rw [add_organism_store_length]
    rcases List.mem_append.mp hk with hk | hk
    · exact Nat.lt_succ_of_lt (h1 k hk)
    · rw [List.mem_singleton.mp hk]
      exact Nat.lt_succ_self _
  · rw [add_organism_pool]
    exact List.Nodup.append h2 (List.nodup_singleton _)
      (List.disjoint_singleton.mpr hfresh)
  · intro a ha b hb hab haa hba
    rw [add_organism_pool] at ha hb
    rcases List.mem_append.mp ha with ha | ha <;> rcases List.mem_append.mp hb with hb | hb
    · rw [lookup_add_organism_of_lt e a o (h1 a ha)] at haa ⊢
      rw [lookup_add_organism_of_lt e b o (h1 b hb)] at hba ⊢
      exact h3 a ha b hb hab haa hba
    · have hbe : b = e.store.length := List.mem_singleton.mp hb
      subst hbe
      rw [lookup_add_organism_of_lt e a o (h1 a ha)] at haa ⊢
      rw [lookup_add_organism_new] at hba ⊢
      exact fun hpos => hobs a ha haa hpos
    · have hae : a = e.store.length := List.mem_singleton.mp ha
      subst hae
      rw [lookup_add_organism_of_lt e b o (h1 b hb)] at hba ⊢
      rw [lookup_add_organism_new] at haa ⊢
      intro hpos
      exact hobs b hb hba ⟨hpos.1.symm, hpos.2.symm⟩
    · rw [List.mem_singleton.mp ha, List.mem_singleton.mp hb] at hab
      exact absurd rfl hab

/-! ### Unfolding lemmas for eat and move -/

theorem eat_choice_some {e : Ecosystem} {i : Nat} {t : Species} {r : Rng} {p : Nat} {r' : Rng}
    (hm : Animal.eat_choice e i t r = (some p, r')) :
    p ∈ e.get_adjacent_organisms (e.lookup i).x (e.lookup i).y t := by
  unfold Animal.eat_choice at hm
  cases hl : e.get_adjacent_organisms (e.lookup i).x (e.lookup i).y t with
  | nil =>
      rw [hl] at hm
      simp at hm
  | cons a as =>
      rw [hl] at hm
      simp only [Prod.mk.injEq, Option.some.injEq] at hm
      rw [← hl, ← hm.1]
      rw [hl]
      exact choice_mem (a :: as) 0 r (by simp)

theorem eat_eq_of_choice_some {e : Ecosystem} {i : Nat} {t : Species} (g : Int) {r : Rng}
    {p : Nat} {r' : Rng} (hm : Animal.eat_choice e i t r = (some p, r')) :
    Animal.eat e i t g r =
      (((e.move_organism i (e.lookup p).x (e.lookup p).y).remove_organism p).modifyEnergy
        i (· + g), r', true) := by
  unfold Animal.eat
  rw [hm]

theorem eat_eq_of_choice_none {e : Ecosystem} {i : Nat} {t : Species} (g : Int) {r r' : Rng}
    (hm : Animal.eat_choice e i t r = (none, r')) :
    Animal.eat e i t g r = (e, r', false) := by
  unfold Animal.eat
  rw [hm]

theorem move_choice_some {e : Ecosystem} {i : Nat} {r : Rng} {c : Int × Int} {r' : Rng}
    (hm : Animal.move_choice e i r = (some c, r')) :
    c ∈ e.get_adjacent_empty_cells (e.lookup i).x (e.lookup i).y := by
  unfold Animal.move_choice at hm
  cases hl : e.get_adjacent_empty_cells (e.lookup i).x (e.lookup i).y with
  | nil =>
      rw [hl] at hm
      simp at hm
  | cons a as =>
      rw [hl] at hm
      simp only [Prod.mk.injEq, Option.some.injEq] at hm
      rw [← hl, ← hm.1]
      rw [hl]
      exact choice_mem (a :: as) (0, 0) r (by simp)

theorem move_eq_of_choice_some {e : Ecosystem} {i : Nat} {r : Rng} {c : Int × Int} {r' : Rng}
    (hm : Animal.move_choice e i r = (some c, r')) :
    Animal.move e i r = (e.move_organism i c.1 c.2, r') := by
  unfold Animal.move
  rw [hm]

theorem move_eq_of_choice_none {e : Ecosystem} {i : Nat} {r r' : Rng}
    (hm : Animal.move_choice e i r = (none, r')) :
    Animal.move e i r = (e, r') := by
  unfold Animal.move
  rw [hm]

/-- The three in-place mutations of a successful eat step preserve the
invariant, even though the relocation transiently places eater and prey
on the same cell. -/
theorem Inv_eat_composite {e : Ecosystem} {i p : Nat} {t : Species} (g : Int)
    (hp : p ∈ e.get_adjacent_organisms (e.lookup i).x (e.lookup i).y t)
    (h : Inv e) :
    Inv (((e.move_organism i (e.lookup p).x (e.lookup p).y).remove_organism p).modifyEnergy
      i (· + g)) := by
  apply Inv_modifyEnergy
  obtain ⟨hpool, halivep, -, hadj⟩ := mem_get_adjacent_organisms hp
  have hpi : p ≠ i := prey_ne_self hp
  have hplen : p < e.store.length := lt_length_of_alive halivep
  by_cases hlt : i < e.store.length
  case neg =>
    rw [move_organism_of_ge _ _ (Nat.le_of_not_lt hlt)]
    exact Inv_remove_organism p h
  obtain ⟨h1, h2, h3⟩ := h
  set px := (e.lookup p).x with hpx
  set py := (e.lookup p).y with hpy
  set e2 := ((e.move_organism i px py).remove_organism p) with he2
  have hplen1 : p < (e.move_organism i px py).store.length := by
    rw [move_organism_store_length]
    exact hplen
  have hlook2p : e2.lookup p = { e.lookup p with alive := false } := by
    rw [he2, lookup_remove_organism_self _ p hplen1,
      lookup_move_organism_ne e i p px py hpi]
  have hlook2i : e2.lookup i = { e.lookup i with x := px, y := py } := by
    rw [he2, lookup_remove_organism_ne _ p i (fun hc => hpi hc.symm),
      lookup_move_organism_self e i px py hlt]
  have hlook2other : ∀ k, k ≠ p → k ≠ i → e2.lookup k = e.lookup k := by
    intro k hkp hki
    rw [he2, lookup_remove_organism_ne _ p k hkp, lookup_move_organism_ne e i k px py hki]
  have hpool2 : e2.pool = e.pool := by rw [he2]; simp
  refine ⟨?_, ?_, ?_⟩
  · intro k hk
    rw [hpool2] at hk
    rw [he2]
    simp only [remove_organism_store_length, move_organism_store_length]
    exact h1 k hk
  · rw [hpool2]
    exact h2
  · intro a ha b hb hab haa hba
    rw [hpool2] at ha hb
    by_cases hap : a = p
    · subst hap
      rw [hlook2p] at haa
      exact absurd haa (by simp)
    by_cases hbp : b = p
    · subst hbp
      rw [hlook2p] at hba
      exact absurd hba (by simp)
    by_cases hai : a = i
    · subst hai
      rw [hlook2i] at haa ⊢
      rw [hlook2other b hbp (fun hc => hab hc.symm)] at hba ⊢
      simp only at haa ⊢
      intro hposeq
      exact h3 b hb p hpool hbp hba halivep ⟨hposeq.1.symm, hposeq.2.symm⟩
    by_cases hbi : b = i
    · subst hbi
      rw [hlook2i] at hba ⊢
      rw [hlook2other a hap hai] at haa ⊢
      simp only at hba ⊢
      intro hposeq
      exact h3 a ha p hpool hap haa halivep ⟨hposeq.1, hposeq.2⟩
    · rw [hlook2other a hap hai] at haa ⊢
      rw [hlook2other b hbp hbi] at hba ⊢
      exact h3 a ha b hb hab haa hba

theorem Inv_eat_fn {e : Ecosystem} (i : Nat) (t : Species) (g : Int) (r : Rng) (h : Inv e) :
    Inv (Animal.eat e i t g r).1 := by
  cases hm : Animal.eat_choice e i t r with
  | mk oc r' =>
      cases oc with
      | none => rw [eat_eq_of_choice_none g hm]; exact h
      | some p =>
          rw [eat_eq_of_choice_some g hm]
          exact Inv_eat_composite g (eat_choice_some hm) h

theorem Inv_move_fn {e : Ecosystem} (i : Nat) (r : Rng) (h : Inv e) :
    Inv (Animal.move e i r).1 := by
  cases hm : Animal.move_choice e i r with
  | mk oc r' =>
      cases oc with
      | none => rw [move_eq_of_choice_none hm]; exact h
      | some c =>
          rw [move_eq_of_choice_some hm]
          have hmem := move_choice_some hm
          exact Inv_move_organism (mem_get_adjacent_empty_cells.mp hmem).2 h

theorem Inv_survive {e : Ecosystem} (i : Nat) (h : Inv e) : Inv (Animal.survive e i).1 := by
  unfold Animal.survive
  split
  · exact Inv_remove_organism i h
  · exact h

theorem choice_fst_mem {α : Type} {l : List α} {d : α} {r : Rng} {c : α} {r2 : Rng}
    (h : choice l d r = (c, r2)) (hne : l ≠ []) : c ∈ l := by
  have hm := choice_mem l d r hne
  rw [h] at hm
  exact hm

theorem Inv_reproduce_fn {e : Ecosystem} (i : Nat) (th : Int) (ch : Nat) (cost : Int)
    {mk : Int → Int → Organism} (ce : Int) (r : Rng)
    (hmk : ∀ x y, (mk x y).x = x ∧ (mk x y).y = y) (h : Inv e) :
    Inv (Animal.reproduce e i th ch cost mk ce r).1 := by
  unfold Animal.reproduce
  split
  case isFalse => exact h
  simp only [Rng.next]
  split
  case isFalse => exact h
  cases hl : e.get_adjacent_empty_cells (e.lookup i).x (e.lookup i).y with
  | nil => exact h
  | cons a as =>
      cases hc : choice (a :: as) (0, 0) { seq := r.seq, pos := r.pos + 1 } with
      | mk c r2 =>
          simp only
          apply Inv_modifyEnergy
          have hcm2 : c ∈ e.get_adjacent_empty_cells (e.lookup i).x (e.lookup i).y := by
            rw [hl]
            exact choice_fst_mem hc (by simp)
          have hempty := (mem_get_adjacent_empty_cells.mp hcm2).2
          apply Inv_add_organism ?_ h
          rw [show ({ mk c.1 c.2 with energy := ce } : Organism).x = c.1 from
                (hmk c.1 c.2).1,
              show ({ mk c.1 c.2 with energy := ce } : Organism).y = c.2 from
                (hmk c.1 c.2).2]
          exact hempty

theorem Inv_plant_update {e : Ecosystem} (i : Nat) (r : Rng) (h : Inv e) :
    Inv (Plant.update e i r).1 := by
  unfold Plant.update
  simp only [Rng.next]
  split
  case isFalse => exact h
  cases hl : e.get_adjacent_empty_cells (e.lookup i).x (e.lookup i).y with
  | nil => exact h
  | cons a as =>
      cases hc : choice (a :: as) (0, 0) { seq := r.seq, pos := r.pos + 1 } with
      | mk c r2 =>
          simp only
          have hcm2 : c ∈ e.get_adjacent_empty_cells (e.lookup i).x (e.lookup i).y := by
            rw [hl]
            exact choice_fst_mem hc (by simp)
          exact Inv_add_organism (mem_get_adjacent_empty_cells.mp hcm2).2 h

theorem Inv_herbivore_update {e : Ecosystem} (i : Nat) (r : Rng) (h : Inv e) :
    Inv (Herbivore.update e i r).1 := by
  have h1 : Inv (Animal.eat (Animal.updateBase e i) i Species.plant HERBIVORE_EAT_GAIN r).1 :=
    Inv_eat_fn i Species.plant HERBIVORE_EAT_GAIN r (Inv_modifyEnergy i _ h)
  have hmk : ∀ x y, (Herbivore.new x y).x = x ∧ (Herbivore.new x y).y = y :=
    fun x y => ⟨rfl, rfl⟩
  simp only [Herbivore.update]
  apply Inv_survive
  split
  · exact h1
  · split
    · exact Inv_reproduce_fn i _ _ _ _ _ hmk h1
    · exact Inv_move_fn i _ (Inv_reproduce_fn i _ _ _ _ _ hmk h1)

theorem Inv_carnivore_update {e : Ecosystem} (i : Nat) (r : Rng) (h : Inv e) :
    Inv (Carnivore.update e i r).1 := by
  have h1 : Inv (Animal.eat (Animal.updateBase e i) i Species.herbivore CARNIVORE_EAT_GAIN r).1 :=
    Inv_eat_fn i Species.herbivore CARNIVORE_EAT_GAIN r (Inv_modifyEnergy i _ h)
  have hmk : ∀ x y, (Carnivore.new x y).x = x ∧ (Carnivore.new x y).y = y :=
    fun x y => ⟨rfl, rfl⟩
  simp only [Carnivore.update]
  apply Inv_survive
  split
  · exact h1
  · split
    · exact Inv_reproduce_fn i _ _ _ _ _ hmk h1
    · exact Inv_move_fn i _ (Inv_reproduce_fn i _ _ _ _ _ hmk h1)

theorem Inv_organism_update {e : Ecosystem} (i : Nat) (r : Rng) (h : Inv e) :
    Inv (Organism.update e i r).1 := by
  unfold Organism.update
  split
  · exact Inv_plant_update i r h
  · exact Inv_herbivore_update i r h
  · exact Inv_carnivore_update i r h

theorem Inv_updateLoop {e : Ecosystem} (ids : List Nat) (r : Rng) (h : Inv e) :
    Inv (updateLoop e ids r).1 := by
  induction ids generalizing e r with
  | nil => exact h
  | cons i rest ih =>
      rw [updateLoop]
      split
      · cases hu : Organism.update e i r with
        | mk e' r' =>
            simp only [hu]
            apply ih
            have hx := Inv_organism_update i r h
            rw [hu] at hx
            exact hx
      · exact ih r h

theorem foldl_erase_sublist (rems : List Nat) (l : List Nat) :
    List.Sublist (rems.foldl (fun acc j => acc.erase j) l) l := by
  induction rems generalizing l with
  | nil => exact List.Sublist.refl l
  | cons a rest ih => exact (ih (l.erase a)).trans (List.erase_sublist a l)

theorem commit_organisms_sublist (e : Ecosystem) :
    List.Sublist (e.commit).organisms e.pool := by
  refine (foldl_erase_sublist e.tempRemoved _).trans ?_
  exact List.Sublist.append (List.Sublist.refl e.organisms) (List.filter_sublist _)

@[simp] theorem commit_store (e : Ecosystem) : (e.commit).store = e.store := rfl

@[simp] theorem commit_tempAdded (e : Ecosystem) : (e.commit).tempAdded = [] := rfl

@[simp] theorem commit_tempRemoved (e : Ecosystem) : (e.commit).tempRemoved = [] := rfl

theorem commit_pool (e : Ecosystem) : (e.commit).pool = (e.commit).organisms := by
  simp [Ecosystem.pool]

theorem Inv_commit {e : Ecosystem} (h : Inv e) : Inv e.commit := by
  obtain ⟨h1, h2, h3⟩ := h
  have hsub : List.Sublist (e.commit).organisms e.pool := commit_organisms_sublist e
  refine ⟨?_, ?_, ?_⟩
  · intro k hk
    rw [commit_pool] at hk
    exact h1 k (hsub.subset hk)
  · rw [commit_pool]
    exact h2.sublist hsub
  · intro a ha b hb hab haa hba
    rw [commit_pool] at ha hb
    exact h3 a (hsub.subset ha) b (hsub.subset hb) hab haa hba

theorem Inv_runTick {e : Ecosystem} (r : Rng) (h : Inv e) : Inv (e.runTick r).1 := by
  rw [Ecosystem.runTick]
  cases hs : shuffle e.organisms r with
  | mk ids r1 =>
      cases hu : updateLoop e ids r1 with
      | mk e1 r2 =>
          simp only [hu]
          refine Inv_commit ?_
          have hx := Inv_updateLoop ids r1 h
          rw [hu] at hx
          exact hx

theorem Inv_runState {e : Ecosystem} (r : Rng) (n : Nat) (h : Inv e) :
    Inv (runState e r n).1 := by
  induction n generalizing e r with
  | zero => exact h
  | succ m ih =>
      rw [runState]
      cases ht : e.runTick r with
      | mk e' r' =>
          simp only [ht]
          apply ih
          have hx := Inv_runTick r h
          rw [ht] at hx
          exact hx

/-! ### Seeding establishes the invariant -/

/-- Accumulator invariant of `populate`: the identity list enumerates the
heap, every placed organism's cell is recorded in the helper set, and no
two placed organisms share a cell. -/
def Seeded (store : List Organism) (orgIds : List Nat) (taken : List (Int × Int)) : Prop :=
  orgIds = List.range store.length ∧
  (∀ i, i < store.length → ((lookupOrg store i).x, (lookupOrg store i).y) ∈ taken) ∧
  ∀ i j, i < store.length → j < store.length → i ≠ j →
    ¬((lookupOrg store i).x = (lookupOrg store j).x ∧
      (lookupOrg store i).y = (lookupOrg store j).y)

theorem random_empty_cell_spec {w h : Nat} {taken : List (Int × Int)} {fuel : Nat} {r : Rng}
    {c : Int × Int} {tk' : List (Int × Int)} {r' : Rng}
    (hs : random_empty_cell w h taken fuel r = some (c, tk', r')) :
    c ∉ taken ∧ tk' = c :: taken := by
  induction fuel generalizing r with
  | zero => simp [random_empty_cell] at hs
  | succ f ih =>
      rw [random_empty_cell] at hs
      simp only [sampleCell, Rng.next] at hs
      split at hs
      · exact ih hs
      · simp only [Option.some.injEq, Prod.mk.injEq] at hs
        obtain ⟨hc, htk, -⟩ := hs
        subst hc
        constructor
        · assumption
        · rw [← htk]

theorem populate_seeded {w h : Nat} {mk : Int → Int → Organism} {cnt : Nat}
    {store : List Organism} {ids : List Nat} {tk : List (Int × Int)} {fuel : Nat} {r : Rng}
    {s' : List Organism} {ids' : List Nat} {tk' : List (Int × Int)} {r' : Rng}
    (hmk : ∀ x y, (mk x y).x = x ∧ (mk x y).y = y)
    (hseed : Seeded store ids tk)
    (hp : populate w h mk cnt store ids tk fuel r = some (s', ids', tk', r')) :
    Seeded s' ids' tk' := by
  induction cnt generalizing store ids tk r with
  | zero =>
      rw [populate] at hp
      simp only [Option.some.injEq, Prod.mk.injEq] at hp
      obtain ⟨hs, hi, htk, -⟩ := hp
      rw [← hs, ← hi, ← htk]
      exact hseed
  | succ c ih =>
      rw [populate] at hp
      cases hrec : random_empty_cell w h tk fuel r with
      | none =>
          rw [hrec] at hp
          simp at hp
      | some res =>
          obtain ⟨cell, tk2, r2⟩ := res
          rw [hrec] at hp
          simp only at hp
          obtain ⟨hnotin, htk2⟩ := random_empty_cell_spec hrec
          subst htk2
          refine ih ?_ hp
          obtain ⟨hids, hmem, hdis⟩ := hseed
          refine ⟨?_, ?_, ?_⟩
          · rw [hids]
            simp [List.range_succ]
          · intro i hi
            rw [List.length_append, List.length_singleton] at hi
            by_cases hilt : i < store.length
            · rw [lookupOrg_append_of_lt _ _ _ hilt]
              exact List.mem_cons_of_mem _ (hmem i hilt)
            · have hieq : i = store.length := by omega
              subst hieq
              rw [lookupOrg_append_self]
              rw [(hmk cell.1 cell.2).1, (hmk cell.1 cell.2).2]
              exact List.mem_cons_self _ _
          · intro i j hi hj hij
            rw [List.length_append, List.length_singleton] at hi hj
            by_cases hilt : i < store.length <;> by_cases hjlt : j < store.length
            · rw [lookupOrg_append_of_lt _ _ _ hilt, lookupOrg_append_of_lt _ _ _ hjlt]
              exact hdis i j hilt hjlt hij
            · have hjeq : j = store.length := by omega
              subst hjeq
              rw [lookupOrg_append_of_lt _ _ _ hilt, lookupOrg_append_self]
              rw [(hmk cell.1 cell.2).1, (hmk cell.1 cell.2).2]
              intro hpos
              apply hnotin
              have hcell : ((lookupOrg store i).x, (lookupOrg store i).y) = cell := by
                rw [hpos.1, hpos.2]
              rw [← hcell]
              exact hmem i hilt
            · have hieq : i = store.length := by omega
              subst hieq
              rw [lookupOrg_append_of_lt _ _ _ hjlt, lookupOrg_append_self]
              rw [(hmk cell.1 cell.2).1, (hmk cell.1 cell.2).2]
              intro hpos
              apply hnotin
              have hcell : ((lookupOrg store j).x, (lookupOrg store j).y) = cell := by
                rw [← hpos.1, ← hpos.2]
              rw [← hcell]
              exact hmem j hjlt
            · omega

theorem create_Inv {w h ip ihb ic t fuel : Nat} {r : Rng} {e0 : Ecosystem} {r0 : Rng}
    (hc : Ecosystem.create w h ip ihb ic t fuel r = some (e0, r0)) :
    Inv e0 ∧ e0.tempAdded = [] ∧ e0.tempRemoved = [] := by
  unfold Ecosystem.create at hc
  cases h1 : populate w h Plant.new ip [] [] [] fuel r with
  | none => rw [h1] at hc; simp at hc
  | some res1 =>
      obtain ⟨s1, ids1, t1, r1⟩ := res1
      rw [h1] at hc
      simp only at hc
      cases h2 : populate w h Herbivore.new ihb s1 ids1 t1 fuel r1 with
      | none => rw [h2] at hc; simp at hc
      | some res2 =>
          obtain ⟨s2, ids2, t2, r2⟩ := res2
          rw [h2] at hc
          simp only at hc
          cases h3 : populate w h Carnivore.new ic s2 ids2 t2 fuel r2 with
          | none => rw [h3] at hc; simp at hc
          | some res3 =>
              obtain ⟨s3, ids3, t3, r3⟩ := res3
              rw [h3] at hc
              simp only [Option.some.injEq, Prod.mk.injEq] at hc
              obtain ⟨he0, -⟩ := hc
              have hs0 : Seeded ([] : List Organism) [] [] := by
                refine ⟨rfl, ?_, ?_⟩
                · intro i hi
                  simp at hi
                · intro i j hi hj
                  simp at hi
              have hs1 : Seeded s1 ids1 t1 :=
                populate_seeded (fun x y => ⟨rfl, rfl⟩) hs0 h1
              have hs2 : Seeded s2 ids2 t2 :=
                populate_seeded (fun x y => ⟨rfl, rfl⟩) hs1 h2
              have hs3 : Seeded s3 ids3 t3 :=
                populate_seeded (fun x y => ⟨rfl, rfl⟩) hs2 h3
              obtain ⟨hids, -, hdis⟩ := hs3
              subst he0
              refine ⟨⟨?_, ?_, ?_⟩, rfl, rfl⟩
              · intro i hi
                simp only [Ecosystem.pool, List.append_nil] at hi
                rw [hids] at hi
                exact List.mem_range.mp hi
              · show (ids3 ++ []).Nodup
                rw [List.append_nil, hids]
                exact List.nodup_range _
              · intro i hi j hj hij
                simp only [Ecosystem.pool, List.append_nil] at hi hj
                rw [hids] at hi hj
                exact fun _ _ => hdis i j (List.mem_range.mp hi) (List.mem_range.mp hj) hij

/-- C1: for every valid construction and every tick, at the tick boundary
after the commit phase, every cell of the grid is occupied by at most one
alive organism: `get_organism_at` returns at most one identity. -/
theorem occupancy_after_commit (w h ip ihb ic t fuel : Nat) (r : Rng) (e0 : Ecosystem)
    (hc : (Ecosystem.create w h ip ihb ic t fuel r).map Prod.fst = some e0)
    (r0 : Rng) (n : Nat) (x y : Int) :
    (((runState e0 r0 n).1).get_organism_at x y).length ≤ 1 := by
  cases hcr : Ecosystem.create w h ip ihb ic t fuel r with
  | none =>
      rw [hcr] at hc
      simp at hc
  | some pr =>
      obtain ⟨e0', r'⟩ := pr
      rw [hcr] at hc
      simp only [Option.map_some', Option.some.injEq] at hc
      subst hc
      exact (Inv_runState r0 n (create_Inv hcr).1).occupancy x y

/-! ### C4: the occupancy query -/

/-- C4: at every point, `get_organism_at (x, y)` returns exactly the
organisms — committed in main storage or pending-born in the birth
queue — positioned at `(x, y)` whose alive flag is true; in particular it
reflects pending births and never returns a dead organism. -/
theorem get_organism_at_exact (e : Ecosystem) (x y : Int) (i : Nat) :
    i ∈ e.get_organism_at x y ↔
      i ∈ e.organisms ++ e.tempAdded ∧ (e.lookup i).x = x ∧ (e.lookup i).y = y ∧
        (e.lookup i).alive = true :=
  mem_get_organism_at

/-! ### C2: the eat contract -/

/-- C2: when a Herbivore's or Carnivore's eat step succeeds (in the state
reached after that turn's metabolic cost), the prey's alive flag is false
afterwards (so no occupancy query returns it), the predator sits on the
prey's former cell, and the predator's energy is its pre-turn energy
minus the metabolic cost of 1 plus exactly the species' eat gain. -/
theorem eat_contract (e : Ecosystem) (i : Nat) (r : Rng) (preyClass : Species) (gain : Int)
    (hcase : (preyClass = Species.plant ∧ gain = HERBIVORE_EAT_GAIN) ∨
             (preyClass = Species.herbivore ∧ gain = CARNIVORE_EAT_GAIN))
    (hi : i < e.store.length) (p : Nat)
    (hchoice : (Animal.eat_choice (Animal.updateBase e i) i preyClass r).1 = some p) :
    (Animal.eat (Animal.updateBase e i) i preyClass gain r).2.2 = true ∧
    (((Animal.eat (Animal.updateBase e i) i preyClass gain r).1).lookup p).alive = false ∧
    (∀ a b : Int,
      p ∉ ((Animal.eat (Animal.updateBase e i) i preyClass gain r).1).get_organism_at a b) ∧
    (((Animal.eat (Animal.updateBase e i) i preyClass gain r).1).lookup i).x = (e.lookup p).x ∧
    (((Animal.eat (Animal.updateBase e i) i preyClass gain r).1).lookup i).y = (e.lookup p).y ∧
    (((Animal.eat (Animal.updateBase e i) i preyClass gain r).1).lookup i).energy =
      (e.lookup i).energy - METABOLIC_ENERGY_COST + gain := by
  clear hcase
  set e0 := Animal.updateBase e i with he0
  cases hpc : Animal.eat_choice e0 i preyClass r with
  | mk oc r' =>
      rw [hpc] at hchoice
      simp only at hchoice
      subst hchoice
      have hp := eat_choice_some hpc
      have hpi : p ≠ i := prey_ne_self hp
      obtain ⟨hppool, halivep, -, -⟩ := mem_get_adjacent_organisms hp
      have hpe : e0.lookup p = e.lookup p := lookup_modifyEnergy_ne e i p _ hpi
      have hplen : p < e.store.length := by
        have hl := @lt_length_of_alive e0.store p halivep
        rw [show e0.store.length = e.store.length from modifyEnergy_store_length e i _] at hl
        exact hl
      have hilen0 : i < e0.store.length := by
        rw [show e0.store.length = e.store.length from modifyEnergy_store_length e i _]
        exact hi
      rw [eat_eq_of_choice_some gain hpc]
      simp only
      set e1 := e0.move_organism i (e0.lookup p).x (e0.lookup p).y with he1
      set e2 := e1.remove_organism p with he2
      have hplen1 : p < e1.store.length := by
        rw [he1, move_organism_store_length]
        exact @lt_length_of_alive e0.store p halivep
      have hilen2 : i < e2.store.length := by
        rw [he2, remove_organism_store_length, he1, move_organism_store_length]
        exact hilen0
      have hlookp : (e2.modifyEnergy i (· + gain)).lookup p =
          { e.lookup p with alive := false } := by
        rw [lookup_modifyEnergy_ne e2 i p _ hpi, he2,
          lookup_remove_organism_self e1 p hplen1, he1,
          lookup_move_organism_ne e0 i p _ _ hpi, hpe]
      have hup : (Animal.updateBase e i).lookup i =
          ({ e.lookup i with
              energy := (e.lookup i).energy - METABOLIC_ENERGY_COST }) :=
        lookup_modifyEnergy_self e i _ hi
      have hx2 : e2.lookup i =
          ({ (Animal.updateBase e i).lookup i with
              x := (e.lookup p).x,
              y := (e.lookup p).y }) := by
        rw [he2, lookup_remove_organism_ne e1 p i (fun hc => hpi hc.symm), he1,
          lookup_move_organism_self e0 i _ _ hilen0, hpe, he0]
      have hli : (e2.modifyEnergy i (· + gain)).lookup i =
          ({ e2.lookup i with energy := (e2.lookup i).energy + gain }) :=
        lookup_modifyEnergy_self e2 i _ hilen2
      refine ⟨trivial, ?_, ?_, ?_, ?_, ?_⟩
      · rw [hlookp]
      · intro a b hmem
        have := (mem_get_organism_at.mp hmem).2.2.2
        rw [hlookp] at this
        simp at this
      · rw [hli, hx2]
      · rw [hli, hx2]
      · rw [hli, hx2, hup]

/-! ### C3 and C10: the reproduction contract -/

/-- Shape of a successful `Animal.reproduce` call: the threshold check
passed and the result is exactly one enqueued child (on a chosen empty
adjacent cell, with the fixed child energy) plus the parent's cost. -/
theorem reproduce_success_shape {e : Ecosystem} {i : Nat} {th : Int} {ch : Nat} {cost : Int}
    {mk : Int → Int → Organism} {ce : Int} {r : Rng}
    (hsucc : (Animal.reproduce e i th ch cost mk ce r).2.2 = true) :
    th ≤ (e.lookup i).energy ∧
    ∃ c ∈ e.get_adjacent_empty_cells (e.lookup i).x (e.lookup i).y, ∃ r2 : Rng,
      Animal.reproduce e i th ch cost mk ce r =
        ((e.add_organism { mk c.1 c.2 with energy := ce }).modifyEnergy i (· - cost),
          r2, true) := by
  by_cases h1 : th ≤ (e.lookup i).energy
  case neg =>
    unfold Animal.reproduce at hsucc
    rw [if_neg h1] at hsucc
    simp at hsucc
  by_cases h2 : r.seq r.pos % 100 < ch
  case neg =>
    unfold Animal.reproduce at hsucc
    rw [if_pos h1] at hsucc
    simp only [Rng.next] at hsucc
    rw [if_neg h2] at hsucc
    simp at hsucc
  cases hl : e.get_adjacent_empty_cells (e.lookup i).x (e.lookup i).y with
  | nil =>
      unfold Animal.reproduce at hsucc
      rw [if_pos h1] at hsucc
      simp only [Rng.next] at hsucc
      rw [if_pos h2, hl] at hsucc
      simp at hsucc
  | cons a as =>
      cases hc : choice (a :: as) (0, 0) { seq := r.seq, pos := r.pos + 1 } with
      | mk c r2 =>
          refine ⟨h1, c, ?_, r2, ?_⟩
          · exact choice_fst_mem hc (by simp)
          · unfold Animal.reproduce
            rw [if_pos h1]
            simp only [Rng.next]
            rw [if_pos h2, hl]
            simp only [hc]

/-- C3: whenever `reproduce` succeeds for a Herbivore or Carnivore, the
parent's energy decreases by exactly the species' reproduction cost, the
single enqueued child's energy equals the species' fixed child energy
(independent of the parent's energy), and exactly one child is enqueued:
the birth queue grows by exactly the one new identity. -/
theorem reproduction_contract (e : Ecosystem) (i : Nat) (r : Rng)
    (th : Int) (ch : Nat) (cost : Int) (mk : Int → Int → Organism) (ce : Int)
    (hcase : (th = HERBIVORE_REPRODUCTION_ENERGY_THRESHOLD ∧
              cost = HERBIVORE_REPRODUCTION_COST ∧
              mk = Herbivore.new ∧ ce = HERBIVORE_CHILD_ENERGY) ∨
             (th = CARNIVORE_REPRODUCTION_ENERGY_THRESHOLD ∧
              cost = CARNIVORE_REPRODUCTION_COST ∧
              mk = Carnivore.new ∧ ce = CARNIVORE_CHILD_ENERGY))
    (hsucc : (Animal.reproduce e i th ch cost mk ce r).2.2 = true) :
    (((Animal.reproduce e i th ch cost mk ce r).1).lookup i).energy =
      (e.lookup i).energy - cost ∧
    ((Animal.reproduce e i th ch cost mk ce r).1).tempAdded =
      e.tempAdded ++ [e.store.length] ∧
    (((Animal.reproduce e i th ch cost mk ce r).1).lookup e.store.length).energy = ce ∧
    ((Animal.reproduce e i th ch cost mk ce r).1).store.length = e.store.length + 1 := by
  obtain ⟨hth, c, hcm, r2, heq⟩ := reproduce_success_shape hsucc
  have hthpos : (20 : Int) ≤ th := by
    rcases hcase with ⟨h, -⟩ | ⟨h, -⟩ <;> rw [h]
    · rfl
    · norm_num [CARNIVORE_REPRODUCTION_ENERGY_THRESHOLD]
  have hi : i < e.store.length := by
    by_contra hge
    rw [Ecosystem.lookup, lookupOrg_of_ge e.store i (by omega)] at hth
    simp only [default] at hth
    omega
  have hine : i ≠ e.store.length := by omega
  rw [heq]
  simp only
  set child : Organism := { mk c.1 c.2 with energy := ce } with hchild
  have hilt' : i < (e.add_organism child).store.length := by
    rw [add_organism_store_length]
    omega
  refine ⟨?_, ?_, ?_, ?_⟩
  · rw [lookup_modifyEnergy_self _ i _ hilt', lookup_add_organism_of_lt e i child hi]
  · rw [modifyEnergy_tempAdded, add_organism_tempAdded]
  · rw [lookup_modifyEnergy_ne _ i _ _ (fun hc2 => hine hc2.symm),
      lookup_add_organism_new]
  · rw [modifyEnergy_store_length, add_organism_store_length]

/-- C10: with the given species constants, a successful reproduction
leaves the parent strictly above zero energy — post-reproduction energy
is at least threshold minus cost (12 for Herbivore, 20 for Carnivore) —
so the survive check of that turn never enqueues the parent for death. -/
theorem reproduction_survives (e : Ecosystem) (i : Nat) (r : Rng)
    (th : Int) (ch : Nat) (cost : Int) (mk : Int → Int → Organism) (ce : Int)
    (hcase : (th = HERBIVORE_REPRODUCTION_ENERGY_THRESHOLD ∧
              cost = HERBIVORE_REPRODUCTION_COST) ∨
             (th = CARNIVORE_REPRODUCTION_ENERGY_THRESHOLD ∧
              cost = CARNIVORE_REPRODUCTION_COST))
    (hsucc : (Animal.reproduce e i th ch cost mk ce r).2.2 = true) :
    th - cost ≤ (((Animal.reproduce e i th ch cost mk ce r).1).lookup i).energy ∧
    0 < (((Animal.reproduce e i th ch cost mk ce r).1).lookup i).energy ∧
    Animal.survive ((Animal.reproduce e i th ch cost mk ce r).1) i =
      (((Animal.reproduce e i th ch cost mk ce r).1), true) := by
  obtain ⟨hth, c, hcm, r2, heq⟩ := reproduce_success_shape hsucc
  have hgap : (12 : Int) ≤ th - cost ∧ (20 : Int) ≤ th := by
    rcases hcase with ⟨h1, h2⟩ | ⟨h1, h2⟩ <;> rw [h1, h2] <;> constructor <;>
      norm_num [HERBIVORE_REPRODUCTION_ENERGY_THRESHOLD, HERBIVORE_REPRODUCTION_COST,
        CARNIVORE_REPRODUCTION_ENERGY_THRESHOLD, CARNIVORE_REPRODUCTION_COST]
  have hi : i < e.store.length := by
    by_contra hge
    rw [Ecosystem.lookup, lookupOrg_of_ge e.store i (by omega)] at hth
    simp only [default] at hth
    omega
  have hilt' : i < ((e.add_organism { mk c.1 c.2 with energy := ce }).store.length) := by
    rw [add_organism_store_length]
    omega
  have hen : (((Animal.reproduce e i th ch cost mk ce r).1).lookup i).energy =
      (e.lookup i).energy - cost := by
    rw [heq]
    simp only
    rw [lookup_modifyEnergy_self _ i _ hilt',
      lookup_add_organism_of_lt e i _ hi]
  refine ⟨?_, ?_, ?_⟩
  · rw [hen]
    omega
  · rw [hen]
    omega
  · unfold Animal.survive
    rw [if_neg]
    rw [hen]
    omega

/-! ### C5: starvation deaths are committed -/

theorem mem_tempRemoved_survive {e : Ecosystem} {i x : Nat} (hx : x ∈ e.tempRemoved) :
    x ∈ ((Animal.survive e i).1).tempRemoved := by
  unfold Animal.survive
  split
  · simp only [remove_organism_tempRemoved]
    exact List.mem_append_left _ hx
  · exact hx

theorem mem_tempRemoved_eat {e : Ecosystem} {i : Nat} {t : Species} {g : Int} {r : Rng} {x : Nat}
    (hx : x ∈ e.tempRemoved) : x ∈ ((Animal.eat e i t g r).1).tempRemoved := by
  cases hm : Animal.eat_choice e i t r with
  | mk oc r' =>
      cases oc with
      | none =>
          rw [eat_eq_of_choice_none g hm]
          exact hx
      | some p =>
          rw [eat_eq_of_choice_some g hm]
          simp only [modifyEnergy_tempRemoved, remove_organism_tempRemoved,
            move_organism_tempRemoved]
          exact List.mem_append_left _ hx

theorem tempRemoved_eq_reproduce (e : Ecosystem) (i : Nat) (th : Int) (ch : Nat) (cost : Int)
    (mk : Int → Int → Organism) (ce : Int) (r : Rng) :
    ((Animal.reproduce e i th ch cost mk ce r).1).tempRemoved = e.tempRemoved := by
  unfold Animal.reproduce
  split
  case isFalse => rfl
  simp only [Rng.next]
  split
  case isFalse => rfl
  cases hl : e.get_adjacent_empty_cells (e.lookup i).x (e.lookup i).y with
  | nil => rfl
  | cons a as =>
      cases hc : choice (a :: as) (0, 0) { seq := r.seq, pos := r.pos + 1 } with
      | mk c r2 =>
          simp only [hc]
          rfl

theorem tempRemoved_eq_move (e : Ecosystem) (i : Nat) (r : Rng) :
    ((Animal.move e i r).1).tempRemoved = e.tempRemoved := by
  cases hm : Animal.move_choice e i r with
  | mk oc r' =>
      cases oc with
      | none => rw [move_eq_of_choice_none hm]
      | some c =>
          rw [move_eq_of_choice_some hm]
          rfl

theorem tempRemoved_eq_plant (e : Ecosystem) (i : Nat) (r : Rng) :
    ((Plant.update e i r).1).tempRemoved = e.tempRemoved := by
  unfold Plant.update
  simp only [Rng.next]
  split
  case isFalse => rfl
  cases hl : e.get_adjacent_empty_cells (e.lookup i).x (e.lookup i).y with
  | nil => rfl
  | cons a as =>
      cases hc : choice (a :: as) (0, 0) { seq := r.seq, pos := r.pos + 1 } with
      | mk c r2 =>
          simp only [hc]
          rfl

theorem mem_tempRemoved_herbivore {e : Ecosystem} {i : Nat} {r : Rng} {x : Nat}
    (hx : x ∈ e.tempRemoved) : x ∈ ((Herbivore.update e i r).1).tempRemoved := by
  simp only [Herbivore.update]
  apply mem_tempRemoved_survive
  split
  · exact mem_tempRemoved_eat hx
  · split
    · rw [tempRemoved_eq_reproduce]
      exact mem_tempRemoved_eat hx
    · rw [tempRemoved_eq_move, tempRemoved_eq_reproduce]
      exact mem_tempRemoved_eat hx

theorem mem_tempRemoved_carnivore {e : Ecosystem} {i : Nat} {r : Rng} {x : Nat}
    (hx : x ∈ e.tempRemoved) : x ∈ ((Carnivore.update e i r).1).tempRemoved := by
  simp only [Carnivore.update]
  apply mem_tempRemoved_survive
  split
  · exact mem_tempRemoved_eat hx
  · split
    · rw [tempRemoved_eq_reproduce]
      exact mem_tempRemoved_eat hx
    · rw [tempRemoved_eq_move, tempRemoved_eq_reproduce]
      exact mem_tempRemoved_eat hx

theorem mem_tempRemoved_update {e : Ecosystem} {i : Nat} {r : Rng} {x : Nat}
    (hx : x ∈ e.tempRemoved) : x ∈ ((Organism.update e i r).1).tempRemoved := by
  unfold Organism.update
  split
  · rw [tempRemoved_eq_plant]
    exact hx
  · exact mem_tempRemoved_herbivore hx
  · exact mem_tempRemoved_carnivore hx

theorem mem_tempRemoved_updateLoop {e : Ecosystem} {ids : List Nat} {r : Rng} {x : Nat}
    (hx : x ∈ e.tempRemoved) : x ∈ ((updateLoop e ids r).1).tempRemoved := by
  induction ids generalizing e r with
  | nil => exact hx
  | cons i rest ih =>
      rw [updateLoop]
      split
      · cases hu : Organism.update e i r with
        | mk e' r' =>
            simp only [hu]
            apply ih
            have hx2 := @mem_tempRemoved_update e i r x hx
            rw [hu] at hx2
            exact hx2
      · exact ih hx

/-- The survive check at the end of a turn: if the organism's energy is
not positive there, it is enqueued for death. -/
theorem survive_enqueues (ef : Ecosystem) (i : Nat)
    (h : (((Animal.survive ef i).1).lookup i).energy ≤ 0) :
    i ∈ ((Animal.survive ef i).1).tempRemoved := by
  unfold Animal.survive at h ⊢
  by_cases hc : (ef.lookup i).energy ≤ 0
  · rw [if_pos hc]
    simp only [remove_organism_tempRemoved]
    exact List.mem_append_right _ (List.mem_singleton_self i)
  · rw [if_neg hc] at h
    exact absurd h hc

/-- Every animal turn ends in the survive check, whatever action fired:
non-positive energy at turn end means the animal is in the death queue. -/
theorem animal_update_enqueues_death (e : Ecosystem) (i : Nat) (r : Rng)
    (hsp : (e.lookup i).species = Species.herbivore ∨
           (e.lookup i).species = Species.carnivore)
    (hen : (((Organism.update e i r).1).lookup i).energy ≤ 0) :
    i ∈ ((Organism.update e i r).1).tempRemoved := by
  unfold Organism.update at hen ⊢
  rcases hsp with hsp | hsp <;> rw [hsp] at hen ⊢
  · simp only [Herbivore.update] at hen ⊢
    exact survive_enqueues _ i hen
  · simp only [Carnivore.update] at hen ⊢
    exact survive_enqueues _ i hen

theorem not_mem_foldl_erase_of_not_mem {i : Nat} {l : List Nat} (rems : List Nat)
    (h : i ∉ l) : i ∉ rems.foldl (fun acc j => acc.erase j) l := by
  intro hc
  exact h ((foldl_erase_sublist rems l).subset hc)

theorem not_mem_foldl_erase {i : Nat} {l rems : List Nat}
    (hcount : l.count i ≤ 1) (hr : i ∈ rems) :
    i ∉ rems.foldl (fun acc j => acc.erase j) l := by
  induction rems generalizing l with
  | nil => simp at hr
  | cons a rest ih =>
      simp only [List.foldl_cons]
      by_cases hai : a = i
      · apply not_mem_foldl_erase_of_not_mem
        rw [hai]
        intro hc
        have hpos := List.count_pos_iff.mpr hc
        have herase := List.count_erase_self i l
        omega
      · have hr2 : i ∈ rest := by
          rcases List.mem_cons.mp hr with h1 | h2
          · exact absurd h1.symm hai
          · exact h2
        refine ih ?_ hr2
        calc (l.erase a).count i ≤ l.count i := (List.erase_sublist a l).count_le i
          _ ≤ 1 := hcount

/-- The commit phase purges every enqueued death from main storage. -/
theorem commit_purges {e : Ecosystem} (i : Nat) (hnd : e.pool.Nodup)
    (hr : i ∈ e.tempRemoved) : i ∉ (e.commit).organisms := by
  apply not_mem_foldl_erase ?_ hr
  have hsub : List.Sublist (e.organisms ++ e.tempAdded.filter fun k => (e.lookup k).alive)
      e.pool :=
    List.Sublist.append (List.Sublist.refl e.organisms) (List.filter_sublist _)
  exact List.nodup_iff_count_le_one.mp (hnd.sublist hsub) i

/-- C5: an animal whose energy is not positive at the end of its own turn
is enqueued for death during that turn and is absent from main storage at
the next tick boundary, whatever the rest of the tick does. -/
theorem starvation_purged (e : Ecosystem) (i : Nat) (r : Rng) (rest : List Nat)
    (hInv : Inv e)
    (hsp : (e.lookup i).species = Species.herbivore ∨
           (e.lookup i).species = Species.carnivore)
    (hen : (((Organism.update e i r).1).lookup i).energy ≤ 0) :
    i ∈ ((Organism.update e i r).1).tempRemoved ∧
    i ∉ ((updateLoop ((Organism.update e i r).1) rest
          ((Organism.update e i r).2)).1).commit.organisms := by
  have h1 : i ∈ ((Organism.update e i r).1).tempRemoved :=
    animal_update_enqueues_death e i r hsp hen
  have h2 : i ∈ ((updateLoop ((Organism.update e i r).1) rest
      ((Organism.update e i r).2)).1).tempRemoved :=
    mem_tempRemoved_updateLoop h1
  have hInv2 : Inv ((updateLoop ((Organism.update e i r).1) rest
      ((Organism.update e i r).2)).1) :=
    Inv_updateLoop rest _ (Inv_organism_update i r hInv)
  exact ⟨h1, commit_purges i hInv2.2.1 h2⟩

/-! ### C9: dead organisms are never mutated again -/

theorem dead_frame_eat {e : Ecosystem} {i j : Nat} (t : Species) (g : Int) (r : Rng)
    (hij : i ≠ j) (hdead : (e.lookup j).alive = false) :
    ((Animal.eat e i t g r).1).lookup j = e.lookup j := by
  cases hm : Animal.eat_choice e i t r with
  | mk oc r' =>
      cases oc with
      | none => rw [eat_eq_of_choice_none g hm]
      | some p =>
          have hp := eat_choice_some hm
          obtain ⟨-, halivep, -, -⟩ := mem_get_adjacent_organisms hp
          have hpj : p ≠ j := by
            intro hc
            rw [hc, hdead] at halivep
            exact absurd halivep (by simp)
          rw [eat_eq_of_choice_some g hm]
          simp only
          rw [lookup_modifyEnergy_ne _ i j _ (fun hc => hij hc.symm),
            lookup_remove_organism_ne _ p j (fun hc => hpj hc.symm),
            lookup_move_organism_ne _ i j _ _ (fun hc => hij hc.symm)]

theorem dead_frame_reproduce {e : Ecosystem} {i j : Nat} (th : Int) (ch : Nat) (cost : Int)
    (mk : Int → Int → Organism) (ce : Int) (r : Rng)
    (hij : i ≠ j) (hj : j < e.store.length) :
    ((Animal.reproduce e i th ch cost mk ce r).1).lookup j = e.lookup j := by
  unfold Animal.reproduce
  split
  case isFalse => rfl
  simp only [Rng.next]
  split
  case isFalse => rfl
  cases hl : e.get_adjacent_empty_cells (e.lookup i).x (e.lookup i).y with
  | nil => rfl
  | cons a as =>
      cases hc : choice (a :: as) (0, 0) { seq := r.seq, pos := r.pos + 1 } with
      | mk c r2 =>
          simp only [hc]
          rw [lookup_modifyEnergy_ne _ i j _ (fun hc2 => hij hc2.symm),
            lookup_add_organism_of_lt e j _ hj]

theorem dead_frame_move {e : Ecosystem} {i j : Nat} (r : Rng) (hij : i ≠ j) :
    ((Animal.move e i r).1).lookup j = e.lookup j := by
  cases hm : Animal.move_choice e i r with
  | mk oc r' =>
      cases oc with
      | none => rw [move_eq_of_choice_none hm]
      | some c =>
          rw [move_eq_of_choice_some hm]
          exact lookup_move_organism_ne e i j _ _ (fun hc => hij hc.symm)

theorem dead_frame_survive {e : Ecosystem} {i j : Nat} (hij : i ≠ j) :
    ((Animal.survive e i).1).lookup j = e.lookup j := by
  unfold Animal.survive
  split
  · exact lookup_remove_organism_ne e i j (fun hc => hij hc.symm)
  · rfl

theorem dead_frame_plant {e : Ecosystem} {i j : Nat} (r : Rng) (hj : j < e.store.length) :
    ((Plant.update e i r).1).lookup j = e.lookup j := by
  unfold Plant.update
  simp only [Rng.next]
  split
  case isFalse => rfl
  cases hl : e.get_adjacent_empty_cells (e.lookup i).x (e.lookup i).y with
  | nil => rfl
  | cons a as =>
      cases hc : choice (a :: as) (0, 0) { seq := r.seq, pos := r.pos + 1 } with
      | mk c r2 =>
          simp only [hc]
          exact lookup_add_organism_of_lt e j _ hj

theorem store_len_eat (e : Ecosystem) (i : Nat) (t : Species) (g : Int) (r : Rng) :
    ((Animal.eat e i t g r).1).store.length = e.store.length := by
  cases hm : Animal.eat_choice e i t r with
  | mk oc r' =>
      cases oc with
      | none => rw [eat_eq_of_choice_none g hm]
      | some p =>
          rw [eat_eq_of_choice_some g hm]
          simp

theorem store_len_reproduce_le (e : Ecosystem) (i : Nat) (th : Int) (ch : Nat) (cost : Int)
    (mk : Int → Int → Organism) (ce : Int) (r : Rng) :
    e.store.length ≤ ((Animal.reproduce e i th ch cost mk ce r).1).store.length := by
  unfold Animal.reproduce
  split
  case isFalse => exact Nat.le_refl _
  simp only [Rng.next]
  split
  case isFalse => exact Nat.le_refl _
  cases hl : e.get_adjacent_empty_cells (e.lookup i).x (e.lookup i).y with
  | nil => exact Nat.le_refl _
  | cons a as =>
      cases hc : choice (a :: as) (0, 0) { seq := r.seq, pos := r.pos + 1 } with
      | mk c r2 =>
          simp only [hc]
          simp

theorem store_len_move (e : Ecosystem) (i : Nat) (r : Rng) :
    ((Animal.move e i r).1).store.length = e.store.length := by
  cases hm : Animal.move_choice e i r with
  | mk oc r' =>
      cases oc with
      | none => rw [move_eq_of_choice_none hm]
      | some c =>
          rw [move_eq_of_choice_some hm]
          simp

theorem store_len_survive (e : Ecosystem) (i : Nat) :
    ((Animal.survive e i).1).store.length = e.store.length := by
  unfold Animal.survive
  split
  · simp
  · rfl

theorem store_len_plant_le (e : Ecosystem) (i : Nat) (r : Rng) :
    e.store.length ≤ ((Plant.update e i r).1).store.length := by
  unfold Plant.update
  simp only [Rng.next]
  split
  case isFalse => exact Nat.le_refl _
  cases hl : e.get_adjacent_empty_cells (e.lookup i).x (e.lookup i).y with
  | nil => exact Nat.le_refl _
  | cons a as =>
      cases hc : choice (a :: as) (0, 0) { seq := r.seq, pos := r.pos + 1 } with
      | mk c r2 =>
          simp only [hc]
          simp

theorem store_len_update_le (e : Ecosystem) (i : Nat) (r : Rng) :
    e.store.length ≤ ((Organism.update e i r).1).store.length := by
  unfold Organism.update
  split
  · exact store_len_plant_le e i r
  · simp only [Herbivore.update]
    rw [store_len_survive]
    split
    · rw [store_len_eat]
      simp [Animal.updateBase]
    · split
      · refine Nat.le_trans ?_ (store_len_reproduce_le _ i _ _ _ _ _ _)
        rw [store_len_eat]
        simp [Animal.updateBase]
      · rw [store_len_move]
        refine Nat.le_trans ?_ (store_len_reproduce_le _ i _ _ _ _ _ _)
        rw [store_len_eat]
        simp [Animal.updateBase]
  · simp only [Carnivore.update]
    rw [store_len_survive]
    split
    · rw [store_len_eat]
      simp [Animal.updateBase]
    · split
      · refine Nat.le_trans ?_ (store_len_reproduce_le _ i _ _ _ _ _ _)
        rw [store_len_eat]
        simp [Animal.updateBase]
      · rw [store_len_move]
        refine Nat.le_trans ?_ (store_len_reproduce_le _ i _ _ _ _ _ _)
        rw [store_len_eat]
        simp [Animal.updateBase]

theorem dead_frame_update {e : Ecosystem} {i j : Nat} (r : Rng)
    (hdead : (e.lookup j).alive = false) (halive : (e.lookup i).alive = true)
    (hj : j < e.store.length) :
    ((Organism.update e i r).1).lookup j = e.lookup j := by
  have hij : i ≠ j := by
    intro hc
    rw [hc, hdead] at halive
    exact absurd halive (by simp)
  have h0 : (Animal.updateBase e i).lookup j = e.lookup j :=
    lookup_modifyEnergy_ne e i j _ (fun hc => hij hc.symm)
  have h0d : ((Animal.updateBase e i).lookup j).alive = false := by
    rw [h0]
    exact hdead
  unfold Organism.update
  split
  · exact dead_frame_plant r hj
  · simp only [Herbivore.update]
    rw [dead_frame_survive hij]
    have h1 : ((Animal.eat (Animal.updateBase e i) i Species.plant
        HERBIVORE_EAT_GAIN r).1).lookup j = e.lookup j := by
      rw [dead_frame_eat _ _ _ hij h0d]
      exact h0
    have h1d : (((Animal.eat (Animal.updateBase e i) i Species.plant
        HERBIVORE_EAT_GAIN r).1).lookup j).alive = false := by
      rw [h1]
      exact hdead
    have h1len : j < ((Animal.eat (Animal.updateBase e i) i Species.plant
        HERBIVORE_EAT_GAIN r).1).store.length := by
      rw [store_len_eat]
      simpa [Animal.updateBase] using hj
    split
    · exact h1
    · split
      · rw [dead_frame_reproduce _ _ _ _ _ _ hij h1len]
        exact h1
      · rw [dead_frame_move _ hij, dead_frame_reproduce _ _ _ _ _ _ hij h1len]
        exact h1
  · simp only [Carnivore.update]
    rw [dead_frame_survive hij]
    have h1 : ((Animal.eat (Animal.updateBase e i) i Species.herbivore
        CARNIVORE_EAT_GAIN r).1).lookup j = e.lookup j := by
      rw [dead_frame_eat _ _ _ hij h0d]
      exact h0
    have h1len : j < ((Animal.eat (Animal.updateBase e i) i Species.herbivore
        CARNIVORE_EAT_GAIN r).1).store.length := by
      rw [store_len_eat]
      simpa [Animal.updateBase] using hj
    split
    · exact h1
    · split
      · rw [dead_frame_reproduce _ _ _ _ _ _ hij h1len]
        exact h1
      · rw [dead_frame_move _ hij, dead_frame_reproduce _ _ _ _ _ _ hij h1len]
        exact h1

theorem dead_frame_updateLoop {e : Ecosystem} {ids : List Nat} {r : Rng} {j : Nat}
    (hj : j < e.store.length) (hdead : (e.lookup j).alive = false) :
    ((updateLoop e ids r).1).lookup j = e.lookup j ∧
    j < ((updateLoop e ids r).1).store.length := by
  induction ids generalizing e r with
  | nil => exact ⟨rfl, hj⟩
  | cons i rest ih =>
      rw [updateLoop]
      split
      case isFalse => exact ih hj hdead
      case isTrue halive =>
        cases hu : Organism.update e i r with
        | mk e' r' =>
            simp only [hu]
            have hfr := dead_frame_update r hdead halive hj
            have hlen := store_len_update_le e i r
            rw [hu] at hfr hlen
            simp only at hfr hlen
            have hj' : j < e'.store.length := Nat.lt_of_lt_of_le hj hlen
            have hdead' : (e'.lookup j).alive = false := by
              rw [hfr]
              exact hdead
            obtain ⟨ha, hb⟩ := ih hj' hdead'
            refine ⟨?_, hb⟩
            rw [ha, hfr]

theorem dead_frame_runTick {e : Ecosystem} {r : Rng} {j : Nat}
    (hj : j < e.store.length) (hdead : (e.lookup j).alive = false) :
    ((e.runTick r).1).lookup j = e.lookup j ∧ j < ((e.runTick r).1).store.length := by
  rw [Ecosystem.runTick]
  cases hs : shuffle e.organisms r with
  | mk ids r1 =>
      cases hu : updateLoop e ids r1 with
      | mk e1 r2 =>
          simp only [hu]
          obtain ⟨ha, hb⟩ := @dead_frame_updateLoop e ids r1 j hj hdead
          rw [hu] at ha hb
          simp only at ha hb
          exact ⟨ha, hb⟩

/-- C9: once an organism's alive flag is false, its record (position,
energy, symbol, species, alive flag) is never mutated again for the rest
of the run — the scheduler skips dead organisms and prey selection only
targets alive ones. -/
theorem dead_organisms_frozen (e : Ecosystem) (r : Rng) (n : Nat) (j : Nat)
    (hj : j < e.store.length) (hdead : (e.lookup j).alive = false) :
    ((runState e r n).1).lookup j = e.lookup j := by
  induction n generalizing e r with
  | zero => rfl
  | succ m ih =>
      rw [runState]
      cases ht : e.runTick r with
      | mk e' r' =>
          simp only [ht]
          obtain ⟨ha, hb⟩ := @dead_frame_runTick e r j hj hdead
          rw [ht] at ha hb
          simp only at ha hb
          have hdead' : (e'.lookup j).alive = false := by
            rw [ha]
            exact hdead
          rw [ih e' r' hb hdead', ha]

/-! ### C6: determinism -/

/-- A concrete seed used in witness instantiations. -/
def rngZero : Rng := ⟨fun _ => 0, 0⟩

/-- C6: a whole run is a pure function of the construction parameters and
the random seed; two runs with identical parameters and the same seed
produce bit-identical snapshot sequences.  All randomness — initial
placement, shuffle order, prey/cell choices, probability rolls — is drawn
from the single generator threaded through `simulate`. -/
theorem run_deterministic (width height ip ihb ic ticks fuel : Nat) (seed1 seed2 : Rng)
    (hseed : seed1 = seed2) :
    simulate width height ip ihb ic ticks fuel seed1 =
      simulate width height ip ihb ic ticks fuel seed2 := by
  rw [hseed]

/-! ### C7: termination of the placement search -/

/-- The cell sampled by the n-th iteration of the `random_empty_cell`
retry loop (each iteration draws twice). -/
def cellSeq (w h : Nat) (r : Rng) (n : Nat) : Int × Int :=
  (((r.seq (r.pos + 2 * n) % w : Nat) : Int), ((r.seq (r.pos + 2 * n + 1) % h : Nat) : Int))

/-- The `while True:` loop of `random_empty_cell` terminates: some finite
fuel makes the fueled embedding return. -/
def random_empty_cell_terminates (w h : Nat) (taken : List (Int × Int)) (r : Rng) : Prop :=
  ∃ fuel, (random_empty_cell w h taken fuel r).isSome = true

theorem cellSeq_shift (w h : Nat) (r : Rng) (n : Nat) :
    cellSeq w h { seq := r.seq, pos := r.pos + 1 + 1 } n = cellSeq w h r (n + 1) := by
  have h1 : r.pos + 1 + 1 + 2 * n = r.pos + 2 * (n + 1) := by omega
  have h2 : r.pos + 1 + 1 + (2 * n + 1) = r.pos + 2 * (n + 1) + 1 := by omega
  simp only [cellSeq]
  rw [show r.pos + 1 + 1 + 2 * n = r.pos + 2 * (n + 1) from h1]

theorem random_empty_cell_none {w h : Nat} {taken : List (Int × Int)} {r : Rng}
    (hall : ∀ n, cellSeq w h r n ∈ taken) (fuel : Nat) :
    random_empty_cell w h taken fuel r = none := by
  induction fuel generalizing r with
  | zero => rfl
  | succ f ih =>
      rw [random_empty_cell]
      simp only [sampleCell, Rng.next]
      rw [show (((r.seq r.pos % w : Nat) : Int), ((r.seq (r.pos + 1) % h : Nat) : Int)) =
        cellSeq w h r 0 from rfl]
      rw [if_pos (hall 0)]
      apply ih
      intro n
      rw [cellSeq_shift]
      exact hall (n + 1)

theorem random_empty_cell_some {w h : Nat} {taken : List (Int × Int)} {r : Rng} {n : Nat}
    (hfree : cellSeq w h r n ∉ taken) :
    (random_empty_cell w h taken (n + 1) r).isSome = true := by
  induction n generalizing r with
  | zero =>
      rw [random_empty_cell]
      simp only [sampleCell, Rng.next]
      rw [show (((r.seq r.pos % w : Nat) : Int), ((r.seq (r.pos + 1) % h : Nat) : Int)) =
        cellSeq w h r 0 from rfl]
      rw [if_neg hfree]
      rfl
  | succ m ih =>
      rw [random_empty_cell]
      simp only [sampleCell, Rng.next]
      rw [show (((r.seq r.pos % w : Nat) : Int), ((r.seq (r.pos + 1) % h : Nat) : Int)) =
        cellSeq w h r 0 from rfl]
      by_cases hc : cellSeq w h r 0 ∈ taken
      · rw [if_pos hc]
        apply ih
        rw [cellSeq_shift]
        exact hfree
      · rw [if_neg hc]
        rfl

/-- C7 (amended): the seeding placement search does not terminate on
every input — it terminates exactly when the random stream eventually
samples a cell outside the taken set; when every sampled cell is already
taken (e.g. the whole grid is occupied) the `while True:` loop runs
forever, since the source places no bound on the search. -/
theorem random_empty_cell_terminates_iff (w h : Nat) (taken : List (Int × Int)) (r : Rng) :
    random_empty_cell_terminates w h taken r ↔ ∃ n, cellSeq w h r n ∉ taken := by
  constructor
  · intro ⟨fuel, hsome⟩
    by_contra hno
    push_neg at hno
    rw [random_empty_cell_none hno fuel] at hsome
    simp at hsome
  · intro ⟨n, hfree⟩
    exact ⟨n + 1, random_empty_cell_some hfree⟩

/-- C7 counterexample: on a 1-by-1 grid whose only cell is already taken,
the placement search never returns, whatever fuel it is given — the claim
that the search terminates for every input is false. -/
theorem random_empty_cell_diverges :
    ¬ random_empty_cell_terminates 1 1 [((0 : Int), (0 : Int))] rngZero := by
  intro ⟨fuel, hsome⟩
  have hall : ∀ n, cellSeq 1 1 rngZero n ∈ [((0 : Int), (0 : Int))] := by
    intro n
    simp [cellSeq, rngZero]
  rw [random_empty_cell_none hall fuel] at hsome
  simp at hsome

/-! ### C8: relocation targets -/

/-- A 1-by-2 world: a herbivore at (0,0) and an alive plant at (0,1). -/
def eatDemo : Ecosystem :=
  { width := 1, height := 2, store := [Herbivore.new 0 0, Plant.new 0 1],
    organisms := [0, 1], tempAdded := [], tempRemoved := [], total_ticks := 1 }

/-- C8 counterexample: in `eatDemo` the herbivore's eat step chooses the
plant (identity 1), so `move_organism` is invoked with the prey's cell as
target — and at the moment of that call the occupancy query on the
target returns the still-alive prey, not the empty list.  The claim that
every relocation targets an empty cell is false. -/
theorem move_target_occupied :
    (Animal.eat_choice eatDemo 0 Species.plant rngZero).1 = some 1 ∧
    (eatDemo.lookup 1).alive = true ∧
    eatDemo.get_organism_at (eatDemo.lookup 1).x (eatDemo.lookup 1).y = [1] := by
  decide

/-- C8 (amended): relocations from `Animal.move` always target a cell
that is empty at the moment of the call; the relocation inside
`Animal.eat` instead targets the chosen prey's cell, occupied by the
still-alive prey at the moment of the call — the prey is marked dead
immediately after the relocation. -/
theorem relocate_targets (e : Ecosystem) (i : Nat) (r : Rng) :
    (∀ c : Int × Int, (Animal.move_choice e i r).1 = some c →
      e.get_organism_at c.1 c.2 = []) ∧
    (∀ (preyClass : Species) (gain : Int) (p : Nat),
      (Animal.eat_choice e i preyClass r).1 = some p →
      p ∈ e.get_organism_at (e.lookup p).x (e.lookup p).y ∧
      (e.lookup p).alive = true ∧
      (((Animal.eat e i preyClass gain r).1).lookup p).alive = false) := by
  constructor
  · intro c hm
    cases hmc : Animal.move_choice e i r with
    | mk oc r' =>
        rw [hmc] at hm
        simp only at hm
        subst hm
        exact (mem_get_adjacent_empty_cells.mp (move_choice_some hmc)).2
  · intro t g p hm
    cases hmc : Animal.eat_choice e i t r with
    | mk oc r' =>
        rw [hmc] at hm
        simp only at hm
        subst hm
        have hp := eat_choice_some hmc
        obtain ⟨hpool, halivep, -, -⟩ := mem_get_adjacent_organisms hp
        have hpi : p ≠ i := prey_ne_self hp
        have hplen : p < e.store.length := lt_length_of_alive halivep
        refine ⟨mem_get_organism_at.mpr ⟨hpool, rfl, rfl, halivep⟩, halivep, ?_⟩
        rw [eat_eq_of_choice_some g hmc]
        simp only
        rw [lookup_modifyEnergy_ne _ i p _ hpi,
          lookup_remove_organism_self _ p (by simpa using hplen)]

/-! ### Concrete witness states -/

/-- A 2-by-1 world with a lone herbivore at (0,0), whose only adjacent
cell (1,0) is empty. -/
def moveDemo : Ecosystem :=
  { width := 2, height := 1, store := [Herbivore.new 0 0],
    organisms := [0], tempAdded := [], tempRemoved := [], total_ticks := 1 }

/-- A 2-by-1 world with a lone herbivore at (0,0) holding 25 energy,
ready to reproduce into (1,0). -/
def repDemo : Ecosystem :=
  { width := 2, height := 1,
    store := [{ Herbivore.new 0 0 with energy := 25 }],
    organisms := [0], tempAdded := [], tempRemoved := [], total_ticks := 1 }

/-- A 1-by-1 world with a lone herbivore holding 1 energy: its turn
leaves it at 0 energy with nothing to eat and nowhere to go. -/
def starveDemo : Ecosystem :=
  { width := 1, height := 1,
    store := [{ Herbivore.new 0 0 with energy := 1 }],
    organisms := [0], tempAdded := [], tempRemoved := [], total_ticks := 1 }

/-- A 1-by-2 world holding a herbivore and an already-dead plant. -/
def frozenDemo : Ecosystem :=
  { width := 1, height := 2,
    store := [Herbivore.new 0 0, { Plant.new 0 1 with alive := false }],
    organisms := [0, 1], tempAdded := [], tempRemoved := [], total_ticks := 1 }

/-- The ecosystem built by `create 2 2 1 0 0 1` from the all-zero seed:
one plant at (0,0). -/
def createDemo : Ecosystem :=
  { width := 2, height := 2, store := [Plant.new 0 0],
    organisms := [0], tempAdded := [], tempRemoved := [], total_ticks := 1 }

/-- Witness for C1 at a concrete construction and one tick. -/
theorem occupancy_after_commit_witness :
    (((runState createDemo rngZero 1).1).get_organism_at 0 0).length ≤ 1 :=
  occupancy_after_commit 2 2 1 0 0 1 4 rngZero createDemo (by decide) rngZero 1 0 0

/-- Witness for C2: the herbivore of `eatDemo` eats the plant. -/
theorem eat_contract_witness :
    (Animal.eat (Animal.updateBase eatDemo 0) 0 Species.plant HERBIVORE_EAT_GAIN
      rngZero).2.2 = true ∧
    (((Animal.eat (Animal.updateBase eatDemo 0) 0 Species.plant HERBIVORE_EAT_GAIN
      rngZero).1).lookup 1).alive = false ∧
    (∀ a b : Int, 1 ∉ ((Animal.eat (Animal.updateBase eatDemo 0) 0 Species.plant
      HERBIVORE_EAT_GAIN rngZero).1).get_organism_at a b) ∧
    (((Animal.eat (Animal.updateBase eatDemo 0) 0 Species.plant HERBIVORE_EAT_GAIN
      rngZero).1).lookup 0).x = (eatDemo.lookup 1).x ∧
    (((Animal.eat (Animal.updateBase eatDemo 0) 0 Species.plant HERBIVORE_EAT_GAIN
      rngZero).1).lookup 0).y = (eatDemo.lookup 1).y ∧
    (((Animal.eat (Animal.updateBase eatDemo 0) 0 Species.plant HERBIVORE_EAT_GAIN
      rngZero).1).lookup 0).energy =
      (eatDemo.lookup 0).energy - METABOLIC_ENERGY_COST + HERBIVORE_EAT_GAIN :=
  eat_contract eatDemo 0 rngZero Species.plant HERBIVORE_EAT_GAIN (Or.inl ⟨rfl, rfl⟩)
    (by decide) 1 (by decide)

/-- Witness for C3: the herbivore of `repDemo` reproduces. -/
theorem reproduction_contract_witness :
    (((Animal.reproduce repDemo 0 HERBIVORE_REPRODUCTION_ENERGY_THRESHOLD
      HERBIVORE_REPRODUCTION_CHANCE HERBIVORE_REPRODUCTION_COST Herbivore.new
      HERBIVORE_CHILD_ENERGY rngZero).1).lookup 0).energy =
        (repDemo.lookup 0).energy - HERBIVORE_REPRODUCTION_COST ∧
    ((Animal.reproduce repDemo 0 HERBIVORE_REPRODUCTION_ENERGY_THRESHOLD
      HERBIVORE_REPRODUCTION_CHANCE HERBIVORE_REPRODUCTION_COST Herbivore.new
      HERBIVORE_CHILD_ENERGY rngZero).1).tempAdded =
        repDemo.tempAdded ++ [repDemo.store.length] ∧
    (((Animal.reproduce repDemo 0 HERBIVORE_REPRODUCTION_ENERGY_THRESHOLD
      HERBIVORE_REPRODUCTION_CHANCE HERBIVORE_REPRODUCTION_COST Herbivore.new
      HERBIVORE_CHILD_ENERGY rngZero).1).lookup repDemo.store.length).energy =
        HERBIVORE_CHILD_ENERGY ∧
    ((Animal.reproduce repDemo 0 HERBIVORE_REPRODUCTION_ENERGY_THRESHOLD
      HERBIVORE_REPRODUCTION_CHANCE HERBIVORE_REPRODUCTION_COST Herbivore.new
      HERBIVORE_CHILD_ENERGY rngZero).1).store.length = repDemo.store.length + 1 :=
  reproduction_contract repDemo 0 rngZero HERBIVORE_REPRODUCTION_ENERGY_THRESHOLD
    HERBIVORE_REPRODUCTION_CHANCE HERBIVORE_REPRODUCTION_COST Herbivore.new
    HERBIVORE_CHILD_ENERGY (Or.inl ⟨rfl, rfl, rfl, rfl⟩) (by decide)

/-- Witness for C5: the starving herbivore of `starveDemo` is enqueued
for death during its turn and purged at commit. -/
theorem starvation_purged_witness :
    0 ∈ ((Organism.update starveDemo 0 rngZero).1).tempRemoved ∧
    0 ∉ ((updateLoop ((Organism.update starveDemo 0 rngZero).1) []
          ((Organism.update starveDemo 0 rngZero).2)).1).commit.organisms :=
  starvation_purged starveDemo 0 rngZero [] (by decide) (Or.inl (by decide)) (by decide)

/-- Witness for C6 at concrete parameters and seed. -/
theorem run_deterministic_witness :
    simulate 3 3 2 1 1 2 20 rngZero = simulate 3 3 2 1 1 2 20 rngZero :=
  run_deterministic 3 3 2 1 1 2 20 rngZero rngZero rfl

/-- Witness for C8 (amended): the move of `moveDemo`'s herbivore targets
the empty cell (1,0); the eat of `eatDemo`'s herbivore targets the
occupied cell of the alive plant, which is dead right afterwards. -/
theorem relocate_targets_witness :
    moveDemo.get_organism_at 1 0 = [] ∧
    (1 ∈ eatDemo.get_organism_at (eatDemo.lookup 1).x (eatDemo.lookup 1).y ∧
      (eatDemo.lookup 1).alive = true ∧
      (((Animal.eat eatDemo 0 Species.plant HERBIVORE_EAT_GAIN rngZero).1).lookup 1).alive
        = false) :=
  ⟨(relocate_targets moveDemo 0 rngZero).1 (1, 0) (by decide),
   (relocate_targets eatDemo 0 rngZero).2 Species.plant HERBIVORE_EAT_GAIN 1 (by decide)⟩

/-- Witness for C9: the dead plant of `frozenDemo` is untouched by a full
tick (during which the herbivore moves onto its cell). -/
theorem dead_organisms_frozen_witness :
    ((runState frozenDemo rngZero 1).1).lookup 1 = frozenDemo.lookup 1 :=
  dead_organisms_frozen frozenDemo rngZero 1 1 (by decide) (by decide)

/-- Witness for C10: the reproduction of `repDemo`'s herbivore leaves it
alive through the survive check. -/
theorem reproduction_survives_witness :
    HERBIVORE_REPRODUCTION_ENERGY_THRESHOLD - HERBIVORE_REPRODUCTION_COST ≤
      (((Animal.reproduce repDemo 0 HERBIVORE_REPRODUCTION_ENERGY_THRESHOLD
        HERBIVORE_REPRODUCTION_CHANCE HERBIVORE_REPRODUCTION_COST Herbivore.new
        HERBIVORE_CHILD_ENERGY rngZero).1).lookup 0).energy ∧
    0 < (((Animal.reproduce repDemo 0 HERBIVORE_REPRODUCTION_ENERGY_THRESHOLD
        HERBIVORE_REPRODUCTION_CHANCE HERBIVORE_REPRODUCTION_COST Herbivore.new
        HERBIVORE_CHILD_ENERGY rngZero).1).lookup 0).energy ∧
    Animal.survive ((Animal.reproduce repDemo 0 HERBIVORE_REPRODUCTION_ENERGY_THRESHOLD
        HERBIVORE_REPRODUCTION_CHANCE HERBIVORE_REPRODUCTION_COST Herbivore.new
        HERBIVORE_CHILD_ENERGY rngZero).1) 0 =
      (((Animal.reproduce repDemo 0 HERBIVORE_REPRODUCTION_ENERGY_THRESHOLD
        HERBIVORE_REPRODUCTION_CHANCE HERBIVORE_REPRODUCTION_COST Herbivore.new
        HERBIVORE_CHILD_ENERGY rngZero).1), true) :=
  reproduction_survives repDemo 0 rngZero HERBIVORE_REPRODUCTION_ENERGY_THRESHOLD
    HERBIVORE_REPRODUCTION_CHANCE HERBIVORE_REPRODUCTION_COST Herbivore.new
    HERBIVORE_CHILD_ENERGY (Or.inl ⟨rfl, rfl⟩) (by decide)

end EcoSim
